/-
Verification of the dbwrite market-data pipeline.

This file gives a shallow embedding of the core components of the
repository and proves (or refutes) the specification claims about them:

* the per-timeframe candle aggregator state machine
  (`candle/aggregator.go`: `TimeframeAggregator.ProcessTick`,
  `fillMissingBars`, `AggregatorManager.parseQuote`);
* the WebSocket hub's sliding-window candle buffers
  (`api/ws/hub.go`: `CandleBuffer.Add`, `CandleBuffer.Update`,
  `MultiPeriodManager.AddCandle`, `Hub.sendSnapshot`);
* the idempotent kline writer (`DBWriterService`);
* the simulated trade manager and strategy instance
  (`TradeManager.ExecuteTrade`, `StrategyEAInstance.executeSignal`,
  `BaseEAStrategy.CalculateLots`);
* the Green Arrow indicator (`api/ws/indicators`).

Conventions of the embedding:

* Go `time.Time` values are modelled as natural numbers of seconds; the
  timeframe period `P` is a number of seconds and `Truncate` becomes
  `t - t % P` (Go's truncation base differs from the Unix epoch by a
  multiple of every timeframe period used, so windows agree).
* Go `float64` money and price arithmetic are modelled exactly over `ℚ`
  (the claims under consideration are about the algorithms, not about
  IEEE-754 rounding).  The Green Arrow indicator, which takes a square
  root, is modelled over `ℝ` with `Real.sqrt`.
* `uuid.New()` is modelled by a fresh counter (its contract: the new id
  is distinct from every stored one).
* The Redis publish calls are fire-and-forget; emission order is the
  program order of the publish calls, as in the specification.
-/
import Mathlib

namespace Dbwrite

/-! ## Aggregator data model (`candle` service)

`Candle`, `CleanTick` and `PublishEvent` mirror the structs of the
candle service.  Field names keep the Go names. -/

/-- A candlestick bar, as in the candle service's `Candle` struct. -/
structure Candle where
  Symbol    : String
  Timeframe : String
  StartTime : Nat
  Open      : ℚ
  High      : ℚ
  Low       : ℚ
  Close     : ℚ
  Volume    : Int
  deriving Repr, DecidableEq

/-- A parsed tick, as in `CleanTick`. -/
structure CleanTick where
  Symbol    : String
  Price     : ℚ
  Volume    : Int
  Timestamp : Nat
  deriving Repr, DecidableEq

/-- A bus message, as in `PublishEvent`: a status string
(`"UPDATE"` or `"CLOSE"`) together with a candle. -/
structure PublishEvent where
  Status : String
  Candle : Candle
  deriving Repr, DecidableEq

/-- `W(t)`: the tick timestamp truncated down to the timeframe period,
modelling `tick.Timestamp.Truncate(t.Timeframe)`. -/
def window (P t : Nat) : Nat := t - t % P

/-- The bar opened by tick `tick` at window start `w`
(`&Candle{Open: tick.Price, High: tick.Price, ...}`). -/
def openCandle (symbol tfName : String) (w : Nat) (tick : CleanTick) : Candle :=
  { Symbol := symbol, Timeframe := tfName, StartTime := w
    Open := tick.Price, High := tick.Price, Low := tick.Price, Close := tick.Price
    Volume := tick.Volume }

/-- `fillMissingBars count`: the `count` synthetic gap-fill bars published
when a time gap is detected, each one period later than the last, flat at
the previous close with zero volume, each as a stand-alone `CLOSE`. -/
def fillMissingBars (P : Nat) (c : Candle) (count : Nat) : List PublishEvent :=
  (List.range count).map (fun i =>
    { Status := "CLOSE"
      Candle := { Symbol := c.Symbol, Timeframe := c.Timeframe
                  StartTime := c.StartTime + (i + 1) * P
                  Open := c.Close, High := c.Close, Low := c.Close, Close := c.Close
                  Volume := 0 } })

/-- One step of the timeframe state machine
(`TimeframeAggregator.ProcessTick`).  The state is the optional current
candle; the result is the new state together with the list of published
events, in program order of the publish calls. -/
def processTick (P : Nat) (symbol tfName : String) (st : Option Candle)
    (tick : CleanTick) : Option Candle × List PublishEvent :=
  let w := window P tick.Timestamp
  match st with
  | none =>
      -- 情况一: first candle
      let c := openCandle symbol tfName w tick
      (some c, [{ Status := "UPDATE", Candle := c }])
  | some c =>
      if c.StartTime < w then
        -- 情况二: the tick belongs to a new candle
        let missedBars := (w - c.StartTime) / P
        let gaps := if 1 < missedBars then fillMissingBars P c (missedBars - 1) else []
        let c2 := openCandle symbol tfName w tick
        (some c2, gaps ++ [{ Status := "CLOSE", Candle := c }, { Status := "UPDATE", Candle := c2 }])
      else if w = c.StartTime then
        -- 情况三: the tick belongs to the current candle
        let c2 := { c with High := max c.High tick.Price, Low := min c.Low tick.Price
                           Close := tick.Price, Volume := c.Volume + tick.Volume }
        (some c2, [{ Status := "UPDATE", Candle := c2 }])
      else
        -- 情况四: out-of-order tick, dropped with a warning
        (some c, [])

/-- Run the state machine over a whole tick sequence, concatenating the
emitted events. -/
def processTicks (P : Nat) (symbol tfName : String) (st : Option Candle) :
    List CleanTick → Option Candle × List PublishEvent
  | [] => (st, [])
  | t :: ts =>
      let p := processTick P symbol tfName st t
      let q := processTicks P symbol tfName p.1 ts
      (q.1, p.2 ++ q.2)

/-! ## Event block structure (claim C2)

A checker for the shape `(UPDATE+ CLOSE)*` with a possibly open trailing
`UPDATE+` block, blocks keyed by `start_time`, strictly increasing
between consecutive blocks. -/

/-- Checker state: the start time of the last completed block, and the
start time of the currently open block, if any. -/
structure ChkSt where
  lastClosed : Option Nat
  openBar    : Option Nat
  deriving Repr, DecidableEq

/-- One checker transition; `none` is the sink failure state. -/
def chkStep (s : Option ChkSt) (e : PublishEvent) : Option ChkSt :=
  match s with
  | none => none
  | some st =>
      if e.Status = "UPDATE" then
        match st.openBar with
        | some b => if e.Candle.StartTime = b then some st else none
        | none =>
            match st.lastClosed with
            | none => some { lastClosed := st.lastClosed, openBar := some e.Candle.StartTime }
            | some t =>
                if t < e.Candle.StartTime then
                  some { lastClosed := st.lastClosed, openBar := some e.Candle.StartTime }
                else none
      else if e.Status = "CLOSE" then
        match st.openBar with
        | some b =>
            if e.Candle.StartTime = b then
              some { lastClosed := some b, openBar := none }
            else none
        | none => none
      else none

/-- The event list is a concatenation of per-bar `UPDATE+ CLOSE` blocks
(with a possibly still-open final `UPDATE+` block), strictly increasing
start time from block to block. -/
def blocksOk (evs : List PublishEvent) : Bool :=
  (evs.foldl chkStep (some { lastClosed := none, openBar := none })).isSome

/-- The property claimed by C2 for the event stream of a tick sequence:
block structure plus every emitted start time a multiple of `P`. -/
def eventStreamClaim (P : Nat) (symbol tfName : String) (ticks : List CleanTick) : Prop :=
  blocksOk (processTicks P symbol tfName none ticks).2 = true ∧
    ∀ e ∈ (processTicks P symbol tfName none ticks).2, e.Candle.StartTime % P = 0

/-- The gap-free advancement condition on a tick sequence: each tick's
window equals the previous tick's window or is exactly one period later. -/
def ticksStepOk (P : Nat) (ticks : List CleanTick) : Prop :=
  ticks.Chain' (fun a b =>
    window P b.Timestamp = window P a.Timestamp ∨
    window P b.Timestamp = window P a.Timestamp + P)

/-! ## Tick parser (`AggregatorManager.parseQuote`, claim C5)

The upstream frame, and a concrete model of Go's
`time.ParseInLocation("2006-01-02T15:04:05", s, time.UTC)`:
exactly 19 characters in the fixed layout, all components range-checked,
converted into a second count with the standard civil-calendar
day-numbering algorithm. -/

/-- The `Args` payload of an upstream quote frame. -/
structure QuoteArgs where
  Symbol : String
  Bid    : ℚ
  Ask    : ℚ
  Time   : String
  High   : ℚ
  Low    : ℚ
  Spread : ℚ
  deriving Repr, DecidableEq

/-- The `Data` payload of an upstream quote frame. -/
structure QuoteData where
  Args       : QuoteArgs
  Id         : Int
  Login      : Int
  PlatformId : Int
  deriving Repr, DecidableEq

/-- An upstream frame (`UpstreamQuote`).  The Go field `Type` is called
`MsgType` here because `Type` is reserved in Lean. -/
structure UpstreamQuote where
  Id      : Int
  MsgType : String
  Data    : QuoteData
  deriving Repr, DecidableEq

/-- Numeric value of a decimal digit character. -/
def digitVal (c : Char) : Nat := c.toNat - '0'.toNat

/-- Leap-year test of the proleptic Gregorian calendar. -/
def isLeapYear (y : Nat) : Bool := y % 4 = 0 && (y % 100 ≠ 0 || y % 400 = 0)

/-- Number of days in a month. -/
def daysInMonth (y m : Nat) : Nat :=
  if m = 2 then (if isLeapYear y then 29 else 28)
  else if m = 4 ∨ m = 6 ∨ m = 9 ∨ m = 11 then 30
  else 31

/-- Day number of a civil date (standard days-from-civil algorithm,
relative to 0000-03-01 so that every representable date is nonnegative). -/
def civilDay (y m d : Nat) : Nat :=
  let y2 := if m ≤ 2 then y + 399 else y + 400
  let era := y2 / 400
  let yoe := y2 - era * 400
  let doy := (153 * (if 2 < m then m - 3 else m + 9) + 2) / 5 + d - 1
  let doe := yoe * 365 + yoe / 4 - yoe / 100 + doy
  era * 146097 + doe

/-- Model of `time.ParseInLocation("2006-01-02T15:04:05", s, time.UTC)`:
returns the UTC timestamp in seconds (in the `civilDay` epoch), or `none`
if the string is not in the fixed layout or a component is out of range. -/
def parseTimeLayout (s : String) : Option Nat :=
  match s.toList with
  | [y1, y2, y3, y4, s1, m1, m2, s2, d1, d2, st, h1, h2, s3, i1, i2, s4, c1, c2] =>
      if (y1.isDigit && y2.isDigit && y3.isDigit && y4.isDigit &&
          m1.isDigit && m2.isDigit && d1.isDigit && d2.isDigit &&
          h1.isDigit && h2.isDigit && i1.isDigit && i2.isDigit &&
          c1.isDigit && c2.isDigit) = true ∧
         s1 = '-' ∧ s2 = '-' ∧ st = 'T' ∧ s3 = ':' ∧ s4 = ':' then
        let y := ((digitVal y1 * 10 + digitVal y2) * 10 + digitVal y3) * 10 + digitVal y4
        let mo := digitVal m1 * 10 + digitVal m2
        let d := digitVal d1 * 10 + digitVal d2
        let h := digitVal h1 * 10 + digitVal h2
        let mi := digitVal i1 * 10 + digitVal i2
        let sec := digitVal c1 * 10 + digitVal c2
        if 1 ≤ mo ∧ mo ≤ 12 ∧ 1 ≤ d ∧ d ≤ daysInMonth y mo ∧
           h ≤ 23 ∧ mi ≤ 59 ∧ sec ≤ 59 then
          some (civilDay y mo d * 86400 + h * 3600 + mi * 60 + sec)
        else none
      else none
  | _ => none

/-- `strings.SplitN(s, ".", 2)[0]`: the symbol truncated at the first
dot, applied only when the symbol contains a dot (as in the source). -/
def cleanSymbolOf (s : String) : String :=
  if s.toList.contains '.' then String.mk (s.toList.takeWhile (fun c => c ≠ '.')) else s

/-- `AggregatorManager.parseQuote`: decode one upstream frame into a
tick, or an error. -/
def parseQuote (q : UpstreamQuote) : Except String CleanTick :=
  if q.MsgType ≠ "Quote" then Except.error "not a quote message"
  else
    match parseTimeLayout q.Data.Args.Time with
    | none => Except.error ("invalid time format: " ++ q.Data.Args.Time)
    | some ts =>
        Except.ok { Symbol := cleanSymbolOf q.Data.Args.Symbol
                    Price := q.Data.Args.Bid
                    Volume := 1
                    Timestamp := ts }

/-! ## Hub candle buffers (`api/ws/hub.go`, claims C1 and C7) -/

/-- A hub-side candle (`CandleData`). -/
structure CandleData where
  Time   : Nat
  Open   : ℚ
  High   : ℚ
  Low    : ℚ
  Close  : ℚ
  Volume : Int
  deriving Repr, DecidableEq

/-- The fixed-size sliding-window buffer (`CandleBuffer`). -/
structure CandleBuffer where
  candles : List CandleData
  maxSize : Nat
  deriving Repr, DecidableEq

/-- `CandleBuffer.Add`: append, evicting the oldest bar when over
capacity. -/
def CandleBuffer.add (cb : CandleBuffer) (c : CandleData) : CandleBuffer :=
  let cs := cb.candles ++ [c]
  { cb with candles := if cb.maxSize < cs.length then cs.tail else cs }

/-- `CandleBuffer.Update`: overwrite the last bar in place, or append if
the buffer is empty. -/
def CandleBuffer.update (cb : CandleBuffer) (c : CandleData) : CandleBuffer :=
  { cb with candles :=
      if cb.candles.isEmpty then [c] else cb.candles.dropLast ++ [c] }

/-- `MultiPeriodManager.AddCandle`: validate OHLC, then `Add` on a
`CLOSE` event (`isNew = true`) or `Update` on an `UPDATE` event. -/
def addCandle (cb : CandleBuffer) (c : CandleData) (isNew : Bool) : CandleBuffer :=
  if c.High < c.Low then cb
  else if c.High < c.Open ∨ c.High < c.Close then cb
  else if c.Low > c.Open ∨ c.Low > c.Close then cb
  else if isNew then cb.add c
  else cb.update c

/-- Apply a whole sequence of bar events (`isNew` flag paired with the
candle) to a buffer. -/
def applyEvents (cb : CandleBuffer) (evs : List (Bool × CandleData)) : CandleBuffer :=
  evs.foldl (fun b e => addCandle b e.2 e.1) cb

/-- Strictly increasing `Time` along the stored bars (which also rules
out duplicates). -/
def sortedStrict (cs : List CandleData) : Prop :=
  cs.Chain' (fun a b => a.Time < b.Time)

instance sortedStrictDecidable (cs : List CandleData) : Decidable (sortedStrict cs) :=
  inferInstanceAs (Decidable (cs.Chain' (fun (a b : CandleData) => a.Time < b.Time)))

/-- Admissibility of one append against the current contents: the new
bar must be strictly newer than the stored tail. -/
def addOk (cs : List CandleData) (c : CandleData) : Bool :=
  match cs.getLast? with
  | none => true
  | some l => decide (l.Time < c.Time)

/-- Admissibility of one in-place update: the new bar must be strictly
newer than the bar before the tail (the tail itself is overwritten). -/
def updOk (cs : List CandleData) (c : CandleData) : Bool :=
  match cs.dropLast.getLast? with
  | none => true
  | some l => decide (l.Time < c.Time)

/-- The candle passes `AddCandle`'s OHLC validation. -/
def acceptsCandle (c : CandleData) : Bool :=
  decide (c.Low ≤ c.High ∧ c.Open ≤ c.High ∧ c.Close ≤ c.High ∧
          c.Low ≤ c.Open ∧ c.Low ≤ c.Close)

/-- Time-admissibility of a whole event sequence against a starting
buffer: every accepted append is newer than the stored tail and every
accepted update is newer than the bar before the tail. -/
def okSeq (cb : CandleBuffer) : List (Bool × CandleData) → Bool
  | [] => true
  | (isNew, c) :: rest =>
      (if acceptsCandle c then (if isNew then addOk cb.candles c else updOk cb.candles c)
       else true) &&
      okSeq (addCandle cb c isNew) rest

/-! ## Hub snapshot on subscribe (`Hub.Subscribe` / `Hub.sendSnapshot`) -/

/-- The accumulator loop of `splitChannel`: collect characters until a
`':'`, then emit the collected segment. -/
def splitChannelAux : List Char → List Char → List String
  | [], acc => [String.mk acc.reverse]
  | c :: rest, acc =>
      if c = ':' then String.mk acc.reverse :: splitChannelAux rest []
      else splitChannelAux rest (c :: acc)

/-- `splitChannel`: the hub's manual split of a channel name on `':'`
(empty segments included, exactly as the Go loop produces them). -/
def splitChannel (channel : String) : List String := splitChannelAux channel.toList []

/-- The snapshot message schema. -/
structure SnapshotMessage where
  type      : String
  symbol    : String
  timeframe : String
  data      : List CandleData
  deriving Repr, DecidableEq

/-- `Hub.sendSnapshot`, as triggered by `Hub.Subscribe`: look up the
buffer for the channel's key, do nothing when it is empty, otherwise
enqueue one snapshot on the client's bounded send queue (dropped when
the queue is full, as in the non-blocking `select`).  `bufs` is the
`GetCandles` view of the buffer manager (absent keys yield `[]`). -/
def sendSnapshot (bufs : String → List CandleData) (channel : String)
    (sendQueue : List SnapshotMessage) (queueCap : Nat) : List SnapshotMessage :=
  let parts := splitChannel channel
  if parts.length = 3 ∧ parts.headD "" = "kline" then
    let symbol := parts.getD 1 ""
    let timeframe := parts.getD 2 ""
    let candles := bufs (symbol ++ ":" ++ timeframe)
    if candles.isEmpty then sendQueue
    else if sendQueue.length < queueCap then
      sendQueue ++ [{ type := "snapshot", symbol := symbol, timeframe := timeframe
                      data := candles }]
    else sendQueue
  else sendQueue

/-! ## Writer (`DBWriterService`, claim C8) -/

/-- `insertKlineToDB`: `INSERT ... ON CONFLICT (symbol, timeframe,
start_time) DO NOTHING` against a table with that unique key. -/
def insertKlineToDB (db : List Candle) (c : Candle) : List Candle :=
  if db.any (fun r =>
      r.Symbol = c.Symbol ∧ r.Timeframe = c.Timeframe ∧ r.StartTime = c.StartTime) then db
  else db ++ [c]

/-- `DBWriterService.processMessage` restricted to an already-parsed
event: drop anything that is not a `CLOSE`, otherwise insert. -/
def processMessage (db : List Candle) (e : PublishEvent) : List Candle :=
  if e.Status ≠ "CLOSE" then db
  else insertKlineToDB db e.Candle

/-- Number of rows with the given key. -/
def countKey (db : List Candle) (symbol timeframe : String) (startTime : Nat) : Nat :=
  (db.filter (fun r =>
    decide (r.Symbol = symbol ∧ r.Timeframe = timeframe ∧ r.StartTime = startTime))).length

/-! ## Trade manager and strategy instance (claims C6, C9, C10) -/

/-- A trading user (`User`). -/
structure User where
  UserID     : String
  Username   : String
  Balance    : ℚ
  Equity     : ℚ
  Margin     : ℚ
  FreeMargin : ℚ
  deriving Repr, DecidableEq

/-- A simulated position (`Position`).  The Go field `Type` is `Type'`
here. -/
structure Position where
  PositionID : String
  UserID     : String
  EAID       : String
  Symbol     : String
  Type'      : String
  Lots       : ℚ
  OpenPrice  : ℚ
  StopLoss   : ℚ
  TakeProfit : ℚ
  OpenTime   : Nat
  CloseTime  : Nat
  ClosePrice : ℚ
  Profit     : ℚ
  Status     : String
  deriving Repr, DecidableEq

/-- A trade request (`TradeRequest`). -/
structure TradeRequest where
  UserID       : String
  EAID         : String
  MT4AccountID : Int
  Symbol       : String
  Type'        : String
  Lots         : ℚ
  StopLoss     : ℚ
  TakeProfit   : ℚ
  deriving Repr, DecidableEq

/-- A trade response (`TradeResponse`). -/
structure TradeResponse where
  Success    : Bool
  PositionID : String
  Message    : String
  deriving Repr, DecidableEq

/-- The trade manager's state: positions and users keyed by id.
`nextId` models `uuid.New()` (a source of fresh position ids). -/
structure TradeManager where
  positions : List (String × Position)
  users     : List (String × User)
  nextId    : Nat
  deriving Repr, DecidableEq

/-- Association-list lookup by key. -/
def lookupAssoc {α : Type} (l : List (String × α)) (k : String) : Option α :=
  (l.find? (fun p => p.1 == k)).map (fun p => p.2)

/-- Association-list in-place value replacement. -/
def updateAssoc {α : Type} (l : List (String × α)) (k : String) (v : α) :
    List (String × α) :=
  l.map (fun p => if p.1 == k then (k, v) else p)

/-- `TradeManager.ExecuteTrade`.  `now` stands for `time.Now()`. -/
def executeTrade (now : Nat) (tm : TradeManager) (req : TradeRequest) :
    TradeManager × TradeResponse :=
  match lookupAssoc tm.users req.UserID with
  | none => (tm, { Success := false, PositionID := "", Message := "用户不存在" })
  | some user =>
      let requiredMargin := req.Lots * 1000
      if user.FreeMargin < requiredMargin then
        (tm, { Success := false, PositionID := "", Message := "保证金不足" })
      else
        let posId := "pos-" ++ toString tm.nextId
        let position : Position :=
          { PositionID := posId, UserID := req.UserID, EAID := req.EAID
            Symbol := req.Symbol, Type' := req.Type', Lots := req.Lots
            OpenPrice := 0, StopLoss := req.StopLoss, TakeProfit := req.TakeProfit
            OpenTime := now, CloseTime := 0, ClosePrice := 0, Profit := 0
            Status := "OPEN" }
        let user2 := { user with Margin := user.Margin + requiredMargin
                                 FreeMargin := user.FreeMargin - requiredMargin }
        ({ positions := tm.positions ++ [(posId, position)]
           users := updateAssoc tm.users req.UserID user2
           nextId := tm.nextId + 1 },
         { Success := true, PositionID := posId, Message := "开仓成功" })

/-- Go's `abs` helper on prices. -/
def goAbs (x : ℚ) : ℚ := if x < 0 then -x else x

/-- Go's `int(x)` conversion: truncation toward zero. -/
def goTrunc (q : ℚ) : ℤ := if 0 ≤ q then ⌊q⌋ else ⌈q⌉

/-- `roundLots`: keep two decimal places (`float64(int(lots*100+0.5))/100`). -/
def roundLots (lots : ℚ) : ℚ := (goTrunc (lots * 100 + 1/2) : ℚ) / 100

/-- `BaseEAStrategy.CalculateLots`: risk-based position sizing. -/
def CalculateLots (balance riskPercent entryPrice stopLoss : ℚ) : ℚ :=
  let riskAmount := balance * riskPercent / 100
  let pointsRisk := goAbs (entryPrice - stopLoss)
  if pointsRisk = 0 then 0.01
  else
    let pointValue : ℚ := 10
    let lots := riskAmount / (pointsRisk * pointValue)
    let lots2 := if lots < 0.01 then 0.01 else lots
    let lots3 := if 10 < lots2 then 10 else lots2
    roundLots lots3

/-- A trade signal (`Signal`); `Type` is `Type'`. -/
structure Signal where
  Symbol    : String
  Timeframe : String
  Type'     : String
  Price     : ℚ
  StopLoss  : ℚ
  Trend     : Int
  Timestamp : Nat
  deriving Repr, DecidableEq

/-- The strategy-instance configuration fields used by
`executeSignal` (`EAConfig`; the opaque `Params` map is not needed
here). -/
structure EAConfig where
  EAID         : String
  UserID       : String
  EAName       : String
  Symbol       : String
  Timeframe    : String
  Strategy     : String
  RiskPercent  : ℚ
  MaxPositions : Nat
  Enabled      : Bool
  MT4AccountID : Int
  deriving Repr, DecidableEq

/-- The state of one `StrategyEAInstance` relevant to signal execution:
its config, its (snapshot copy of the) user, and its local positions
map. -/
structure StrategyEAInstance where
  config    : EAConfig
  user      : User
  positions : List (String × Position)
  deriving Repr, DecidableEq

/-- `StrategyEAInstance.executeSignal`: admission check against
`MaxPositions`, risk sizing, trade submission, and on success a local
copy of the position recorded with `OpenPrice := signal.Price`. -/
def executeSignal (now : Nat) (ea : StrategyEAInstance) (tm : TradeManager)
    (signal : Signal) : StrategyEAInstance × TradeManager :=
  let openCount := ea.positions.length
  if ea.config.MaxPositions ≤ openCount then (ea, tm)
  else
    let lots := CalculateLots ea.user.Balance ea.config.RiskPercent signal.Price signal.StopLoss
    let req : TradeRequest :=
      { UserID := ea.user.UserID, EAID := ea.config.EAID
        MT4AccountID := ea.config.MT4AccountID, Symbol := signal.Symbol
        Type' := signal.Type', Lots := lots, StopLoss := signal.StopLoss
        TakeProfit := 0 }
    let r := executeTrade now tm req
    if r.2.Success then
      let position : Position :=
        { PositionID := r.2.PositionID, UserID := req.UserID, EAID := req.EAID
          Symbol := req.Symbol, Type' := req.Type', Lots := req.Lots
          OpenPrice := signal.Price, StopLoss := req.StopLoss
          TakeProfit := req.TakeProfit, OpenTime := now, CloseTime := 0
          ClosePrice := 0, Profit := 0, Status := "OPEN" }
      ({ ea with positions := ea.positions ++ [(r.2.PositionID, position)] }, r.1)
    else (ea, r.1)

/-! ## Green Arrow indicator (`api/ws/indicators`, claim C4)

The indicator is a float64 computation ending in a square root; it is
modelled exactly over `ℝ` with `Real.sqrt` (the definitions are
`noncomputable` for that reason).  The Go main loop mutates
zero-initialised arrays `upperBand`, `lowerBand`, `upperStop`,
`lowerStop` and reads index `i-1` of each; the scan state below carries
exactly those previous-index values (initially `0`, as the Go arrays
are) together with the running trend and the previous result record. -/

namespace indicators

/-- `GreenArrowParams`. -/
structure GreenArrowParams where
  Length    : Nat
  Deviation : ℤ
  MoneyRisk : ℝ
  Signal    : ℤ
  Line      : ℤ

/-- `GreenArrowResult`: the per-bar indicator sample. -/
structure GreenArrowResult where
  UpStop     : ℝ
  DownStop   : ℝ
  UpSignal   : ℝ
  DownSignal : ℝ
  UpLine     : ℝ
  DownLine   : ℝ
  Trend      : ℤ
  IsSignal   : Bool

/-- `EMPTY_VALUE = math.MaxFloat64`, exactly. -/
noncomputable def EMPTY_VALUE : ℝ := 2 ^ (1024 : ℕ) - 2 ^ (971 : ℕ)

/-- The sentinel-initialised result record. -/
noncomputable def initResult : GreenArrowResult :=
  { UpStop := -1, DownStop := -1, UpSignal := -1, DownSignal := -1
    UpLine := EMPTY_VALUE, DownLine := EMPTY_VALUE, Trend := 0, IsSignal := false }

/-- Sum of the window `closes[i-k+1 .. i]` (Go iterates
`window[j] = prices[i-j]` for `j < k`). -/
noncomputable def windowSum (c : Nat → ℝ) (i : Nat) : Nat → ℝ
  | 0 => 0
  | k + 1 => c (i - k) + windowSum c i k

/-- Sum of squared deviations from `mean` over the same window. -/
noncomputable def windowSqSum (c : Nat → ℝ) (i : Nat) (mean : ℝ) : Nat → ℝ
  | 0 => 0
  | k + 1 => (c (i - k) - mean) ^ 2 + windowSqSum c i mean k

/-- `CalculateSMA` over the window ending at `i`. -/
noncomputable def CalculateSMA (c : Nat → ℝ) (i L : Nat) : ℝ := windowSum c i L / L

/-- `CalculateStdDev` (population standard deviation) over the window
ending at `i`. -/
noncomputable def CalculateStdDev (c : Nat → ℝ) (i L : Nat) (mean : ℝ) : ℝ :=
  Real.sqrt (windowSqSum c i mean L / L)

/-- `updateUpTrendBuffers`. -/
noncomputable def updateUpTrendBuffers (res : GreenArrowResult) (index : Nat)
    (stopLevel : ℝ) (p : GreenArrowParams) (prev : GreenArrowResult) :
    GreenArrowResult :=
  let isNewSignal :=
    if 0 < p.Signal then (index = p.Length - 1 ∨ prev.UpStop = -1) else False
  let r :=
    if isNewSignal then
      { res with IsSignal := true, UpSignal := stopLevel, UpStop := stopLevel
                 UpLine := if 0 < p.Line then stopLevel else res.UpLine }
    else
      { res with IsSignal := false, UpStop := stopLevel
                 UpLine := if 0 < p.Line then stopLevel else res.UpLine
                 UpSignal := -1 }
  if p.Signal = 2 then { r with UpStop := 0 } else r

/-- `updateDownTrendBuffers`. -/
noncomputable def updateDownTrendBuffers (res : GreenArrowResult) (index : Nat)
    (stopLevel : ℝ) (p : GreenArrowParams) (prev : GreenArrowResult) :
    GreenArrowResult :=
  let isNewSignal :=
    if 0 < p.Signal then (index = p.Length - 1 ∨ prev.DownStop = -1) else False
  let r :=
    if isNewSignal then
      { res with IsSignal := true, DownSignal := stopLevel, DownStop := stopLevel
                 DownLine := if 0 < p.Line then stopLevel else res.DownLine }
    else
      { res with IsSignal := false, DownStop := stopLevel
                 DownLine := if 0 < p.Line then stopLevel else res.DownLine
                 DownSignal := -1 }
  if p.Signal = 2 then { r with DownStop := 0 } else r

/-- `clearUpTrendBuffers`. -/
noncomputable def clearUpTrendBuffers (res : GreenArrowResult) : GreenArrowResult :=
  { res with UpSignal := -1, UpStop := -1, UpLine := EMPTY_VALUE }

/-- `clearDownTrendBuffers`. -/
noncomputable def clearDownTrendBuffers (res : GreenArrowResult) : GreenArrowResult :=
  { res with DownSignal := -1, DownStop := -1, DownLine := EMPTY_VALUE }

/-- `updateBuffers`. -/
noncomputable def updateBuffers (res : GreenArrowResult) (index : Nat)
    (upperStop lowerStop : ℝ) (trend : ℤ) (p : GreenArrowParams)
    (prev : GreenArrowResult) : GreenArrowResult :=
  if 0 < trend then
    clearDownTrendBuffers (updateUpTrendBuffers res index lowerStop p prev)
  else if trend < 0 then
    clearUpTrendBuffers (updateDownTrendBuffers res index upperStop p prev)
  else res

/-- The scan state of the main loop: the running trend, the previous
index's (possibly smoothed) band and stop values, and the previous
result record.  All array reads at `i-1` in the Go code go through this
state; its initial value is all zeros, matching the zero-initialised Go
arrays. -/
structure GAState where
  trend   : ℤ
  ubPrev  : ℝ
  lbPrev  : ℝ
  usPrev  : ℝ
  lsPrev  : ℝ
  prevRes : GreenArrowResult

/-- The scan state before the first iteration (`i = L-1`). -/
noncomputable def initGAState : GAState :=
  { trend := 0, ubPrev := 0, lbPrev := 0, usPrev := 0, lsPrev := 0
    prevRes := initResult }

/-- One iteration of the main loop of `CalculateGreenArrow` at index
`i`, returning the next state and the result record for bar `i`. -/
noncomputable def gaStep (c : Nat → ℝ) (p : GreenArrowParams) (i : Nat)
    (st : GAState) : GAState × GreenArrowResult :=
  let mid := CalculateSMA c i p.Length
  let sd := CalculateStdDev c i p.Length mid
  let ubRaw := mid + (p.Deviation : ℝ) * sd
  let lbRaw := mid - (p.Deviation : ℝ) * sd
  let t1 : ℤ := if 0 < i ∧ st.ubPrev < c i then 1 else st.trend
  let t2 : ℤ := if 0 < i ∧ c i < st.lbPrev then -1 else t1
  let lb := if 0 < i ∧ 0 < t2 ∧ lbRaw < st.lbPrev then st.lbPrev else lbRaw
  let ub := if 0 < i ∧ t2 < 0 ∧ st.ubPrev < ubRaw then st.ubPrev else ubRaw
  let bandWidth := ub - lb
  let riskFactor := (p.MoneyRisk - 1) / 2
  let usRaw := ub + riskFactor * bandWidth
  let lsRaw := lb - riskFactor * bandWidth
  let ls := if 0 < i ∧ 0 < t2 ∧ lsRaw < st.lsPrev then st.lsPrev else lsRaw
  let us := if 0 < i ∧ t2 < 0 ∧ st.usPrev < usRaw then st.usPrev else usRaw
  let res := updateBuffers { initResult with Trend := t2 } i us ls t2 p st.prevRes
  ({ trend := t2, ubPrev := ub, lbPrev := lb, usPrev := us, lsPrev := ls
     prevRes := res }, res)

/-- Run the main loop for `count` iterations starting at index `i`. -/
noncomputable def gaRun (c : Nat → ℝ) (p : GreenArrowParams) :
    Nat → Nat → GAState → List GreenArrowResult
  | _, 0, _ => []
  | i, count + 1, st =>
      let s := gaStep c p i st
      s.2 :: gaRun c p (i + 1) count s.1

/-- A bar as seen by the indicator package. -/
structure Candle where
  Open   : ℝ
  High   : ℝ
  Low    : ℝ
  Close  : ℝ
  Volume : Int

/-- The close-price extraction (`closes[i] = candles[i].Close`; out of
range indices are never consulted by the scan). -/
noncomputable def closesOf (candles : List Candle) : Nat → ℝ :=
  fun i => (candles.getD i ⟨0, 0, 0, 0, 0⟩).Close

/-- `CalculateGreenArrow`: sentinel records for the first `L-1` bars,
then the scan results. -/
noncomputable def CalculateGreenArrow (candles : List Candle)
    (p : GreenArrowParams) : List GreenArrowResult :=
  let n := candles.length
  if n < p.Length then []
  else
    (List.replicate (p.Length - 1) initResult) ++
      gaRun (closesOf candles) p (p.Length - 1) (n - (p.Length - 1)) initGAState

/-- The default parameters `L=8, D=1, M=1.0, S=1, Ln=1`. -/
noncomputable def defaultGAParams : GreenArrowParams :=
  { Length := 8, Deviation := 1, MoneyRisk := 1, Signal := 1, Line := 1 }

/-- The claim C4 scenario closes: 10 flat bars at 100, then 10 bars
stepping up by 1 (and 0 past the end, matching `getD`'s default). -/
noncomputable def c4closes : Nat → ℝ :=
  fun i => if i < 10 then 100 else if i < 20 then 91 + i else 0

/-- The claim C4 scenario bars. -/
noncomputable def c4candles : List Candle :=
  (List.range 20).map (fun i => ⟨c4closes i, c4closes i, c4closes i, c4closes i, 0⟩)

/-- The internal `lowerStop[7]` value of the scan on the C4 scenario:
the "down stop" of the signal bar in the sense of §4.6 step 5. -/
noncomputable def c4LowerStop7 : ℝ :=
  ((gaStep c4closes defaultGAParams 7 initGAState).1).lsPrev

/-- The invariant carried along the C4 scan from index 8 on: uptrend,
the smoothed lower band at most the previous close, and lower stop and
recorded `UpStop` at least 100. -/
def GAInv (i : Nat) (st : GAState) : Prop :=
  st.trend = 1 ∧ st.lbPrev ≤ c4closes (i - 1) ∧ (100 : ℝ) ≤ st.lsPrev ∧
    (100 : ℝ) ≤ st.prevRes.UpStop

end indicators

/-! ## Claim statements -/

/-- The property claimed by C1 for a buffer and an arbitrary event
sequence: capacity bound and strict time ordering. -/
def bufferClaimC1 (cb : CandleBuffer) (evs : List (Bool × CandleData)) : Prop :=
  (applyEvents cb evs).candles.length ≤ cb.maxSize ∧
    sortedStrict (applyEvents cb evs).candles

/-- The property claimed by C7 for one subscribe to
`kline:{symbol}:{timeframe}`: when the buffer is non-empty, exactly one
snapshot with exactly the buffer's bars (at most `maxN`), strictly
time-ordered; when empty, no snapshot. -/
def snapshotClaimC7 (bufs : String → List CandleData) (channel symbol timeframe : String)
    (queue : List SnapshotMessage) (queueCap maxN : Nat) : Prop :=
  (bufs (symbol ++ ":" ++ timeframe) ≠ [] →
    sendSnapshot bufs channel queue queueCap =
      queue ++ [{ type := "snapshot", symbol := symbol, timeframe := timeframe
                  data := bufs (symbol ++ ":" ++ timeframe) }] ∧
    (bufs (symbol ++ ":" ++ timeframe)).length ≤ maxN ∧
    sortedStrict (bufs (symbol ++ ":" ++ timeframe))) ∧
  (bufs (symbol ++ ":" ++ timeframe) = [] →
    sendSnapshot bufs channel queue queueCap = queue)

/-- The property claimed by C6 for one `ExecuteTrade` call: on success
the margin moves by exactly `lots * 1000 > 0` out of free margin and one
new position is stored; on failure nothing changes. -/
def tradeClaimC6 (now : Nat) (tm : TradeManager) (req : TradeRequest) : Prop :=
  ((executeTrade now tm req).2.Success = true →
    ∃ u u2, lookupAssoc tm.users req.UserID = some u ∧
      lookupAssoc (executeTrade now tm req).1.users req.UserID = some u2 ∧
      u2.FreeMargin = u.FreeMargin - req.Lots * 1000 ∧
      u2.Margin = u.Margin + req.Lots * 1000 ∧
      0 < req.Lots * 1000 ∧
      (∃ pr, (executeTrade now tm req).1.positions = tm.positions ++ [pr])) ∧
  ((executeTrade now tm req).2.Success = false →
    (executeTrade now tm req).1 = tm)

/-- The property claimed by C5 for the tick parser, conjunct by
conjunct: non-`Quote` messages dropped without producing an error,
unparseable times dropped, missing symbols dropped, and otherwise a tick
with the truncated symbol, bid price, unit volume and parsed
timestamp. -/
def parseQuoteClaimC5 : Prop :=
  (∀ q : UpstreamQuote, q.MsgType ≠ "Quote" →
      (¬ ∃ t, parseQuote q = Except.ok t) ∧ (¬ ∃ msg, parseQuote q = Except.error msg)) ∧
  (∀ q : UpstreamQuote, q.MsgType = "Quote" → parseTimeLayout q.Data.Args.Time = none →
      ¬ ∃ t, parseQuote q = Except.ok t) ∧
  (∀ q : UpstreamQuote, q.Data.Args.Symbol = "" → ¬ ∃ t, parseQuote q = Except.ok t) ∧
  (∀ (q : UpstreamQuote) (ts : Nat), q.MsgType = "Quote" →
      parseTimeLayout q.Data.Args.Time = some ts → q.Data.Args.Symbol ≠ "" →
      parseQuote q = Except.ok { Symbol := cleanSymbolOf q.Data.Args.Symbol
                                 Price := q.Data.Args.Bid, Volume := 1, Timestamp := ts })

/-- The clamp-and-round lot formula in the specification's words
(`lots = clamp(riskAmount / (|entry − stop| · pointValue), 0.01, 10.0)`
rounded to 2 decimals, minimum lots when the stop distance is zero). -/
def lotsSpec (balance riskPercent entryPrice stopLoss : ℚ) : ℚ :=
  let riskAmount := balance * riskPercent / 100
  if |entryPrice - stopLoss| = 0 then 0.01
  else roundLots (min (max (riskAmount / (|entryPrice - stopLoss| * 10)) 0.01) 10)

/-! ## Concrete inputs used by witnesses and counterexamples -/

/-- A registered user with 1000 free margin. -/
def user1 : User :=
  { UserID := "42", Username := "alice", Balance := 5000, Equity := 0
    Margin := 0, FreeMargin := 1000 }

/-- A trade manager knowing only `user1`. -/
def tm1 : TradeManager := { positions := [], users := [("42", user1)], nextId := 0 }

/-- A one-lot buy request for `user1`. -/
def req1 : TradeRequest :=
  { UserID := "42", EAID := "ea1", MT4AccountID := 7, Symbol := "XAUUSD"
    Type' := "BUY", Lots := 1, StopLoss := 2600, TakeProfit := 0 }

/-- The same request with zero lots (the degenerate case refuting C6 as
stated). -/
def req0 : TradeRequest := { req1 with Lots := 0 }

/-- A strategy configuration for `user1`. -/
def config1 : EAConfig :=
  { EAID := "ea1", UserID := "42", EAName := "GreenArrow", Symbol := "XAUUSD"
    Timeframe := "M1", Strategy := "trend", RiskPercent := 10, MaxPositions := 3
    Enabled := true, MT4AccountID := 7 }

/-- A strategy instance for `user1` with no open positions. -/
def ea1 : StrategyEAInstance := { config := config1, user := user1, positions := [] }

/-- A buy signal at 2700 with stop 2600. -/
def signal1 : Signal :=
  { Symbol := "XAUUSD", Timeframe := "M1", Type' := "BUY", Price := 2700
    StopLoss := 2600, Trend := 1, Timestamp := 0 }

/-- The invariant linking the state machine's current bar to the block
checker's state: the open block is the current bar, every completed
block is strictly older, and the bar's start is period-aligned. -/
def ChkInv (P : Nat) (c : Candle) (chk : ChkSt) : Prop :=
  chk.openBar = some c.StartTime ∧
  (∀ t, chk.lastClosed = some t → t < c.StartTime) ∧
  c.StartTime % P = 0

/-- The first tick of the list (if any) lands in the current bar's
window or in the directly following one. -/
def headOk (P : Nat) (c : Candle) : List CleanTick → Prop
  | [] => True
  | t :: _ => window P t.Timestamp = c.StartTime ∨ window P t.Timestamp = c.StartTime + P

/-- Ticks at 0s, 30s and 70s (two in the first minute, one in the
second). -/
def tickA : CleanTick := { Symbol := "XAUUSD", Price := 1, Volume := 1, Timestamp := 0 }

def tickM : CleanTick := { Symbol := "XAUUSD", Price := 2, Volume := 1, Timestamp := 30 }

def tickC : CleanTick := { Symbol := "XAUUSD", Price := 3, Volume := 1, Timestamp := 70 }

/-- A tick at 130s: its M1 window skips the 60s window entirely. -/
def tickB : CleanTick := { Symbol := "XAUUSD", Price := 2, Volume := 1, Timestamp := 130 }

/-- A current bar at window 0 for the gap-fill scenario. -/
def cGap : Candle :=
  { Symbol := "XAUUSD", Timeframe := "M1", StartTime := 0
    Open := 2650, High := 2650, Low := 2650, Close := 2650, Volume := 3 }

/-- A tick three windows later (window 180). -/
def tickGap : CleanTick := { Symbol := "XAUUSD", Price := 2660, Volume := 1, Timestamp := 185 }

/-- A valid hub candle at time 600. -/
def cd1 : CandleData :=
  { Time := 600, Open := 2650, High := 2655, Low := 2650, Close := 2655, Volume := 5 }

/-- Valid hub candles at 60 s (two versions), 120 s and 180 s. -/
def cdA : CandleData :=
  { Time := 60, Open := 2650, High := 2652, Low := 2649, Close := 2651, Volume := 1 }

def cdA2 : CandleData :=
  { Time := 60, Open := 2650, High := 2653, Low := 2649, Close := 2653, Volume := 2 }

def cdB : CandleData :=
  { Time := 120, Open := 2653, High := 2654, Low := 2652, Close := 2654, Volume := 1 }

def cdC : CandleData :=
  { Time := 180, Open := 2654, High := 2656, Low := 2653, Close := 2655, Volume := 1 }

/-- A buffer-manager view whose only non-empty buffer holds a duplicated
candle, produced by two `CLOSE` appends of the same bar. -/
def bufsDup : String → List CandleData :=
  fun k =>
    if k = "XAUUSD:M1" then
      (applyEvents { candles := [], maxSize := 500 } [(true, cd1), (true, cd1)]).candles
    else []

/-- A buffer-manager view holding two well-ordered bars. -/
def bufsW : String → List CandleData :=
  fun k =>
    if k = "XAUUSD:M1" then
      (applyEvents { candles := [], maxSize := 500 } [(true, cdB), (true, cdC)]).candles
    else []

/-- A well-formed upstream quote whose symbol is empty. -/
def quoteOkNoSymbol : UpstreamQuote :=
  { Id := 6, MsgType := "Quote"
    Data := { Args := { Symbol := "", Bid := 2650, Ask := 2651
                        Time := "2025-11-24T19:45:19", High := 0, Low := 0, Spread := 1 }
              Id := 0, Login := 0, PlatformId := 0 } }

/-- A well-formed upstream quote for `XAUUSD.raw`. -/
def quoteXau : UpstreamQuote :=
  { Id := 6, MsgType := "Quote"
    Data := { Args := { Symbol := "XAUUSD.raw", Bid := 2650, Ask := 2651
                        Time := "2025-11-24T19:45:19", High := 0, Low := 0, Spread := 1 }
              Id := 0, Login := 0, PlatformId := 0 } }

/-- A closed M1 bar used by writer and buffer scenarios. -/
def candle1 : Candle :=
  { Symbol := "XAUUSD", Timeframe := "M1", StartTime := 600
    Open := 2650, High := 2655, Low := 2650, Close := 2655, Volume := 5 }

/-- The corresponding `CLOSE` event. -/
def closeEv : PublishEvent := { Status := "CLOSE", Candle := candle1 }

/-! # Theorems -/

/-! ## Helper lemmas -/

theorem goAbs_eq_abs (x : ℚ) : goAbs x = |x| := by
  unfold goAbs
  rcases lt_or_ge x 0 with h | h
  · simp [h, abs_of_neg h]
  · simp [not_lt.mpr h, abs_of_nonneg h]

theorem roundLots_bounds {x : ℚ} (h1 : 0.01 ≤ x) (h2 : x ≤ 10) :
    0.01 ≤ roundLots x ∧ roundLots x ≤ 10 := by
  have hq1 : (3 : ℚ) / 2 ≤ x * 100 + 1 / 2 := by linarith
  have hq2 : x * 100 + 1 / 2 ≤ 2001 / 2 := by linarith
  have hq0 : (0 : ℚ) ≤ x * 100 + 1 / 2 := by linarith
  have htr : goTrunc (x * 100 + 1 / 2) = ⌊x * 100 + 1 / 2⌋ := by
    unfold goTrunc; rw [if_pos hq0]
  have hfl1 : (1 : ℤ) ≤ ⌊x * 100 + 1 / 2⌋ := by
    rw [Int.le_floor]; push_cast; linarith
  have hfl2 : ⌊x * 100 + 1 / 2⌋ ≤ 1000 := by
    have := Int.floor_le_floor hq2
    have h1000 : ⌊(2001 : ℚ) / 2⌋ = 1000 := by
      rw [Int.floor_eq_iff] <;> norm_num
    omega
  unfold roundLots
  rw [htr]
  have hc1 : (1 : ℚ) ≤ (⌊x * 100 + 1 / 2⌋ : ℚ) := by exact_mod_cast hfl1
  have hc2 : ((⌊x * 100 + 1 / 2⌋ : ℤ) : ℚ) ≤ 1000 := by exact_mod_cast hfl2
  constructor
  · rw [le_div_iff₀ (by norm_num : (0:ℚ) < 100)]
    linarith
  · rw [div_le_iff₀ (by norm_num : (0:ℚ) < 100)]
    linarith

/-! ## Claim C9 — risk sizing -/

/-- C9: `CalculateLots` returns the clamp of
`riskAmount / (|entry − stop| · 10)` to `[0.01, 10]` rounded to two
decimals, returns `0.01` when the stop distance is zero, and its result
always lies in `[0.01, 10]`. -/
theorem calculateLots_c9 (balance riskPercent entryPrice stopLoss : ℚ) :
    CalculateLots balance riskPercent entryPrice stopLoss =
      lotsSpec balance riskPercent entryPrice stopLoss ∧
    (goAbs (entryPrice - stopLoss) = 0 →
      CalculateLots balance riskPercent entryPrice stopLoss = 0.01) ∧
    0.01 ≤ CalculateLots balance riskPercent entryPrice stopLoss ∧
    CalculateLots balance riskPercent entryPrice stopLoss ≤ 10 := by
  unfold CalculateLots lotsSpec
  rw [goAbs_eq_abs]
  by_cases habs : |entryPrice - stopLoss| = 0
  · simp [habs]; norm_num
  · simp only [habs, if_false]
    set raw := balance * riskPercent / 100 / (|entryPrice - stopLoss| * 10) with hraw
    have hclamp :
        (if 10 < (if raw < 0.01 then (0.01 : ℚ) else raw) then (10 : ℚ)
         else if raw < 0.01 then (0.01 : ℚ) else raw) =
        min (max raw 0.01) 10 := by
      rcases lt_or_ge raw 0.01 with h | h
      · have hm : max raw 0.01 = 0.01 := max_eq_right h.le
        simp [h, hm]
        norm_num
      · have hm : max raw 0.01 = raw := max_eq_left h
        rcases lt_or_ge 10 raw with h10 | h10
        · simp [not_lt.mpr h, h10, hm, min_eq_right h10.le]
        · simp [not_lt.mpr h, not_lt.mpr h10, hm, min_eq_left h10]
    have hlo : (0.01 : ℚ) ≤ min (max raw 0.01) 10 :=
      le_min (le_max_right _ _) (by norm_num)
    have hhi : min (max raw 0.01) 10 ≤ 10 := min_le_right _ _
    have hb := roundLots_bounds hlo hhi
    refine ⟨?_, ?_, ?_, ?_⟩
    · simp only [hclamp]
    · intro hc; exact hc.elim
    · simpa [hclamp] using hb.1
    · simpa [hclamp] using hb.2

/-- Witness for C9 at concrete inputs: a regular call and a
zero-stop-distance call. -/
theorem calculateLots_c9_witness :
    CalculateLots 1000 1 2650 2640 = lotsSpec 1000 1 2650 2640 ∧
    0.01 ≤ CalculateLots 1000 1 2650 2640 ∧
    CalculateLots 1000 1 5 5 = 0.01 :=
  ⟨(calculateLots_c9 1000 1 2650 2640).1,
   (calculateLots_c9 1000 1 2650 2640).2.2.1,
   (calculateLots_c9 1000 1 5 5).2.1 (by simp [goAbs])⟩

/-! ## Claim C6 — trade-manager margin conservation -/

theorem lookupAssoc_update {α : Type} (l : List (String × α)) (k : String) (v : α)
    (h : (lookupAssoc l k).isSome) :
    lookupAssoc (updateAssoc l k v) k = some v := by
  induction l with
  | nil => simp [lookupAssoc] at h
  | cons p rest ih =>
      by_cases hk : p.1 = k
      · simp [lookupAssoc, updateAssoc, List.find?_cons, hk]
      · have hk' : (p.1 == k) = false := by simp [hk]
        have hupd : updateAssoc (p :: rest) k v = p :: updateAssoc rest k v := by
          unfold updateAssoc
          rw [List.map_cons, if_neg (by simp [hk] : ¬((p.1 == k) = true))]
        have hlk : lookupAssoc (p :: rest) k = lookupAssoc rest k := by
          simp [lookupAssoc, List.find?_cons, hk']
        have hlk2 : lookupAssoc (p :: updateAssoc rest k v) k =
            lookupAssoc (updateAssoc rest k v) k := by
          simp [lookupAssoc, List.find?_cons, hk']
        rw [hupd, hlk2]
        exact ih (by rwa [hlk] at h)

theorem executeTrade_user_not_found (now : Nat) (tm : TradeManager) (req : TradeRequest)
    (h : lookupAssoc tm.users req.UserID = none) :
    executeTrade now tm req =
      (tm, { Success := false, PositionID := "", Message := "用户不存在" }) := by
  unfold executeTrade
  rw [h]

theorem executeTrade_insufficient (now : Nat) (tm : TradeManager) (req : TradeRequest)
    (u : User) (h : lookupAssoc tm.users req.UserID = some u)
    (h2 : u.FreeMargin < req.Lots * 1000) :
    executeTrade now tm req =
      (tm, { Success := false, PositionID := "", Message := "保证金不足" }) := by
  unfold executeTrade
  rw [h]
  simp [h2]

theorem executeTrade_ok (now : Nat) (tm : TradeManager) (req : TradeRequest)
    (u : User) (h : lookupAssoc tm.users req.UserID = some u)
    (h2 : ¬(u.FreeMargin < req.Lots * 1000)) :
    executeTrade now tm req =
      ({ positions := tm.positions ++
           [("pos-" ++ toString tm.nextId,
             { PositionID := "pos-" ++ toString tm.nextId, UserID := req.UserID
               EAID := req.EAID, Symbol := req.Symbol, Type' := req.Type'
               Lots := req.Lots, OpenPrice := 0, StopLoss := req.StopLoss
               TakeProfit := req.TakeProfit, OpenTime := now, CloseTime := 0
               ClosePrice := 0, Profit := 0, Status := "OPEN" })]
         users := updateAssoc tm.users req.UserID
           { u with Margin := u.Margin + req.Lots * 1000
                    FreeMargin := u.FreeMargin - req.Lots * 1000 }
         nextId := tm.nextId + 1 },
       { Success := true, PositionID := "pos-" ++ toString tm.nextId
         Message := "开仓成功" }) := by
  unfold executeTrade
  rw [h]
  simp [h2]

/-- Counterexample to C6 as stated: a zero-lot request against a known
user with positive free margin succeeds, but its margin delta
`lots · 1000 = 0` is not positive. -/
theorem executeTrade_c6_counterexample : ¬ tradeClaimC6 0 tm1 req0 := by
  intro hclaim
  have hsucc : (executeTrade 0 tm1 req0).2.Success = true := by
    rw [executeTrade_ok 0 tm1 req0 user1 (by simp [tm1, lookupAssoc, user1, req0, req1])
      (by norm_num [user1, req0, req1])]
  obtain ⟨u, u2, _, _, _, _, hpos, _⟩ := hclaim.1 hsucc
  norm_num [req0, req1] at hpos

/-- C6 (amended): for every `ExecuteTrade` call with positive lots, a
successful call moves exactly `lots · 1000` from free margin to margin
of the requesting user and appends exactly one position; a failed call
changes nothing; and failure happens exactly on unknown user or
insufficient free margin. -/
theorem executeTrade_c6 (now : Nat) (tm : TradeManager) (req : TradeRequest)
    (hlots : 0 < req.Lots) :
    ((executeTrade now tm req).2.Success = true →
      ∃ u, lookupAssoc tm.users req.UserID = some u ∧
        ¬(u.FreeMargin < req.Lots * 1000) ∧
        lookupAssoc (executeTrade now tm req).1.users req.UserID =
          some { u with Margin := u.Margin + req.Lots * 1000
                        FreeMargin := u.FreeMargin - req.Lots * 1000 } ∧
        0 < req.Lots * 1000 ∧
        (∃ pr, (executeTrade now tm req).1.positions = tm.positions ++ [pr])) ∧
    ((executeTrade now tm req).2.Success = false → (executeTrade now tm req).1 = tm) ∧
    ((executeTrade now tm req).2.Success = false ↔
      lookupAssoc tm.users req.UserID = none ∨
      ∃ u, lookupAssoc tm.users req.UserID = some u ∧ u.FreeMargin < req.Lots * 1000) := by
  have hmargin : 0 < req.Lots * 1000 := by positivity
  rcases hl : lookupAssoc tm.users req.UserID with _ | u
  · rw [executeTrade_user_not_found now tm req hl]
    refine ⟨?_, ?_, ?_⟩
    · intro h; exact absurd h (by simp)
    · intro _; rfl
    · simp
  · by_cases h2 : u.FreeMargin < req.Lots * 1000
    · rw [executeTrade_insufficient now tm req u hl h2]
      refine ⟨?_, ?_, ?_⟩
      · intro h; exact absurd h (by simp)
      · intro _; rfl
      · simpa using h2
    · rw [executeTrade_ok now tm req u hl h2]
      refine ⟨?_, ?_, ?_⟩
      · intro _
        refine ⟨u, rfl, h2, ?_, hmargin, ⟨_, rfl⟩⟩
        exact lookupAssoc_update tm.users req.UserID _ (by simp [hl])
      · intro h; exact absurd h (by simp)
      · simpa using not_lt.mp h2

/-- Witness for C6 at a concrete successful one-lot trade. -/
theorem executeTrade_c6_witness :
    (∃ u, lookupAssoc tm1.users req1.UserID = some u ∧
      ¬(u.FreeMargin < req1.Lots * 1000) ∧
      lookupAssoc (executeTrade 5 tm1 req1).1.users req1.UserID =
        some { u with Margin := u.Margin + req1.Lots * 1000
                      FreeMargin := u.FreeMargin - req1.Lots * 1000 } ∧
      0 < req1.Lots * 1000 ∧
      (∃ pr, (executeTrade 5 tm1 req1).1.positions = tm1.positions ++ [pr])) :=
  (executeTrade_c6 5 tm1 req1 (by simp [req1])).1
    (by
      rw [executeTrade_ok 5 tm1 req1 user1 (by simp [tm1, lookupAssoc, user1, req1])
        (by simp [user1, req1])])

/-! ## Claim C10 — the two records of one position disagree on open price -/

/-- C10: when `executeSignal` admits a signal and the trade succeeds,
the Trade Manager stores the position with `OpenPrice = 0`, while the
instance's local copy of the same position (same fresh id) records
`OpenPrice = signal.Price`; the two disagree whenever the signal price
is nonzero. -/
theorem executeSignal_c10 (now : Nat) (ea : StrategyEAInstance) (tm : TradeManager)
    (signal : Signal) (u : User)
    (hcount : ea.positions.length < ea.config.MaxPositions)
    (hu : lookupAssoc tm.users ea.user.UserID = some u)
    (hm : ¬(u.FreeMargin <
      CalculateLots ea.user.Balance ea.config.RiskPercent signal.Price signal.StopLoss * 1000)) :
    ∃ pid pmgr ploc,
      (executeSignal now ea tm signal).2.positions = tm.positions ++ [(pid, pmgr)] ∧
      (executeSignal now ea tm signal).1.positions = ea.positions ++ [(pid, ploc)] ∧
      pmgr.OpenPrice = 0 ∧ ploc.OpenPrice = signal.Price ∧
      (signal.Price ≠ 0 → pmgr.OpenPrice ≠ ploc.OpenPrice) := by
  have hok := executeTrade_ok now tm
    { UserID := ea.user.UserID, EAID := ea.config.EAID
      MT4AccountID := ea.config.MT4AccountID, Symbol := signal.Symbol
      Type' := signal.Type'
      Lots := CalculateLots ea.user.Balance ea.config.RiskPercent signal.Price signal.StopLoss
      StopLoss := signal.StopLoss, TakeProfit := 0 } u hu hm
  unfold executeSignal
  simp only []
  rw [if_neg (not_le.mpr hcount), hok]
  simp only [ite_true]
  exact ⟨"pos-" ++ toString tm.nextId, _, _, rfl, rfl, rfl, rfl, fun hp => Ne.symm hp⟩

/-- Witness facts for the C10 scenario, evaluated separately. -/
theorem c10_margin_fact :
    ¬(user1.FreeMargin <
      CalculateLots ea1.user.Balance ea1.config.RiskPercent signal1.Price signal1.StopLoss * 1000) := by
  norm_num [CalculateLots, user1, ea1, config1, signal1, goAbs, roundLots, goTrunc]

theorem c10_lookup_fact : lookupAssoc tm1.users ea1.user.UserID = some user1 := by
  simp [tm1, lookupAssoc, ea1, user1]

/-- Witness for C10: the concrete scenario. -/
theorem executeSignal_c10_witness :
    ∃ pid pmgr ploc,
      (executeSignal 3 ea1 tm1 signal1).2.positions = tm1.positions ++ [(pid, pmgr)] ∧
      (executeSignal 3 ea1 tm1 signal1).1.positions = ea1.positions ++ [(pid, ploc)] ∧
      pmgr.OpenPrice = 0 ∧ ploc.OpenPrice = signal1.Price ∧
      (signal1.Price ≠ 0 → pmgr.OpenPrice ≠ ploc.OpenPrice) :=
  executeSignal_c10 3 ea1 tm1 signal1 user1 (by decide) c10_lookup_fact c10_margin_fact

/-! ## Claim C8 — writer drops UPDATE and is idempotent on CLOSE -/

theorem countKey_pos_iff_any (db : List Candle) (c : Candle) :
    (db.any (fun r =>
        r.Symbol = c.Symbol ∧ r.Timeframe = c.Timeframe ∧ r.StartTime = c.StartTime) = true) ↔
      0 < countKey db c.Symbol c.Timeframe c.StartTime := by
  unfold countKey
  rw [List.any_eq_true, List.length_pos]
  constructor
  · rintro ⟨r, hr, hp⟩
    intro hnil
    have : r ∈ ([] : List Candle) := by
      rw [← hnil]; exact List.mem_filter.mpr ⟨hr, hp⟩
    simp at this
  · intro hne
    obtain ⟨r, hr⟩ := List.exists_mem_of_ne_nil _ hne
    exact ⟨r, (List.mem_filter.mp hr).1, (List.mem_filter.mp hr).2⟩

theorem insertKline_countKey (db : List Candle) (c : Candle) :
    countKey (insertKlineToDB db c) c.Symbol c.Timeframe c.StartTime =
      if 0 < countKey db c.Symbol c.Timeframe c.StartTime then
        countKey db c.Symbol c.Timeframe c.StartTime
      else countKey db c.Symbol c.Timeframe c.StartTime + 1 := by
  unfold insertKlineToDB
  by_cases hany : (db.any (fun r =>
      r.Symbol = c.Symbol ∧ r.Timeframe = c.Timeframe ∧ r.StartTime = c.StartTime) = true)
  · rw [if_pos hany, if_pos ((countKey_pos_iff_any db c).mp hany)]
  · rw [if_neg hany, if_neg (fun hp => hany ((countKey_pos_iff_any db c).mpr hp))]
    unfold countKey
    rw [List.filter_append, List.length_append]
    simp

theorem processMessage_not_close (db : List Candle) (e : PublishEvent)
    (h : e.Status ≠ "CLOSE") : processMessage db e = db := by
  simp [processMessage, h]

theorem processMessage_close_stable (db : List Candle) (e : PublishEvent)
    (h : e.Status = "CLOSE")
    (hc : 0 < countKey db e.Candle.Symbol e.Candle.Timeframe e.Candle.StartTime) :
    processMessage db e = db := by
  unfold processMessage insertKlineToDB
  rw [if_neg (by simp [h]), if_pos ((countKey_pos_iff_any db e.Candle).mpr hc)]

/-- C8: processing a non-`CLOSE` event never writes; processing the same
`CLOSE` event any positive number of times leaves exactly one row for
its `(symbol, timeframe, start_time)` key (given the table's unique-key
invariant on the starting state). -/
theorem writer_c8 (db : List Candle) (e : PublishEvent) (n : Nat)
    (hn : 1 ≤ n)
    (hu : countKey db e.Candle.Symbol e.Candle.Timeframe e.Candle.StartTime ≤ 1) :
    (e.Status ≠ "CLOSE" → (fun d => processMessage d e)^[n] db = db) ∧
    (e.Status = "CLOSE" →
      countKey ((fun d => processMessage d e)^[n] db)
        e.Candle.Symbol e.Candle.Timeframe e.Candle.StartTime = 1) := by
  constructor
  · intro h
    have hfixd : (fun d => processMessage d e) db = db := processMessage_not_close db e h
    exact @Function.iterate_fixed _ (fun d => processMessage d e) db hfixd n
  · intro h
    have hone : countKey (processMessage db e)
        e.Candle.Symbol e.Candle.Timeframe e.Candle.StartTime = 1 := by
      have hpm : processMessage db e = insertKlineToDB db e.Candle := by
        simp [processMessage, h]
      rw [hpm, insertKline_countKey]
      split
      · omega
      · omega
    obtain ⟨m, rfl⟩ : ∃ m, n = m + 1 := ⟨n - 1, by omega⟩
    rw [Function.iterate_succ_apply]
    have hfix : (fun d => processMessage d e) (processMessage db e) = processMessage db e :=
      processMessage_close_stable _ e h (by omega)
    rw [@Function.iterate_fixed _ (fun d => processMessage d e) (processMessage db e) hfix m]
    exact hone

/-- Witness for C8: replaying the same `CLOSE` event twice into an empty
store leaves exactly one row; an `UPDATE` writes nothing. -/
theorem writer_c8_witness :
    countKey ((fun d => processMessage d closeEv)^[2] [])
      closeEv.Candle.Symbol closeEv.Candle.Timeframe closeEv.Candle.StartTime = 1 ∧
    (fun d => processMessage d { Status := "UPDATE", Candle := candle1 })^[1] [] = [] :=
  ⟨(writer_c8 [] closeEv 2 (by decide) (by decide)).2 rfl,
   (writer_c8 [] { Status := "UPDATE", Candle := candle1 } 1 (by decide) (by decide)).1
     (by decide)⟩

/-! ## Claim C5 — tick parser -/

/-- Counterexample to C5 as stated: a `Quote` frame with an empty symbol
and a valid time is **not** dropped — `parseQuote` produces a tick with
an empty symbol (and a non-`Quote` frame is reported through the error
path rather than being a non-error drop). -/
theorem parseQuote_c5_counterexample : ¬ parseQuoteClaimC5 := by
  intro h
  exact h.2.2.1 quoteOkNoSymbol rfl
    ⟨{ Symbol := "", Price := 2650, Volume := 1, Timestamp := 76548829519 }, by rfl⟩

/-- C5 (amended): a non-`Quote` frame is dropped via a parse **error**;
an unparseable time is dropped with the warning error; otherwise — even
when the symbol is missing — a tick is produced with the symbol
truncated at the first `.`, `price = bid`, `volume = 1` and the parsed
UTC timestamp. -/
theorem parseQuote_c5 :
    (∀ q : UpstreamQuote, q.MsgType ≠ "Quote" →
        parseQuote q = Except.error "not a quote message") ∧
    (∀ q : UpstreamQuote, q.MsgType = "Quote" → parseTimeLayout q.Data.Args.Time = none →
        parseQuote q = Except.error ("invalid time format: " ++ q.Data.Args.Time)) ∧
    (∀ (q : UpstreamQuote) (ts : Nat), q.MsgType = "Quote" →
        parseTimeLayout q.Data.Args.Time = some ts →
        parseQuote q = Except.ok { Symbol := cleanSymbolOf q.Data.Args.Symbol
                                   Price := q.Data.Args.Bid, Volume := 1
                                   Timestamp := ts }) := by
  refine ⟨?_, ?_, ?_⟩
  · intro q h
    simp [parseQuote, h]
  · intro q h hnone
    simp [parseQuote, h, hnone]
  · intro q ts h hts
    simp [parseQuote, h, hts]

/-- Witness for C5: the reference frame `XAUUSD.raw` at
`2025-11-24T19:45:19` parses to the truncated-symbol tick. -/
theorem parseQuote_c5_witness :
    parseQuote quoteXau =
      Except.ok { Symbol := cleanSymbolOf quoteXau.Data.Args.Symbol
                  Price := quoteXau.Data.Args.Bid, Volume := 1
                  Timestamp := 76548829519 } :=
  parseQuote_c5.2.2 quoteXau 76548829519 rfl (by decide)

/-! ## Claim C3 — gap-fill correctness -/

/-- C3: when a tick's window is `g ≥ 2` periods past the current bar's
start, the machine emits exactly `g - 1` synthetic stand-alone `CLOSE`
bars at consecutive periods from `start + P`, flat at the previous close
with zero volume, then `CLOSE` for the current bar, then opens a fresh
bar at the tick's window and emits `UPDATE` for it. -/
theorem processTick_gapfill_c3 (P : Nat) (symbol tfName : String) (c : Candle)
    (tick : CleanTick) (g : Nat) (hP : 0 < P) (hg : 2 ≤ g)
    (hw : window P tick.Timestamp = c.StartTime + g * P) :
    processTick P symbol tfName (some c) tick =
      (some (openCandle symbol tfName (c.StartTime + g * P) tick),
       (List.range (g - 1)).map (fun i =>
         { Status := "CLOSE"
           Candle := { Symbol := c.Symbol, Timeframe := c.Timeframe
                       StartTime := c.StartTime + (i + 1) * P
                       Open := c.Close, High := c.Close, Low := c.Close
                       Close := c.Close, Volume := 0 } })
       ++ [{ Status := "CLOSE", Candle := c },
           { Status := "UPDATE"
             Candle := openCandle symbol tfName (c.StartTime + g * P) tick }]) := by
  have hgp : 0 < g * P := Nat.mul_pos (by omega) hP
  unfold processTick
  simp only []
  rw [hw]
  rw [if_pos (by omega : c.StartTime < c.StartTime + g * P)]
  have hmb : (c.StartTime + g * P - c.StartTime) / P = g := by
    rw [Nat.add_sub_cancel_left]
    exact Nat.mul_div_cancel g hP
  rw [hmb, if_pos (by omega : 1 < g)]
  rfl

/-- Witness for C3: window 0 bar, tick at 185 s on M1 (`g = 3`): two
synthetic closes at 60 and 120, then the old bar's close, then the new
bar's update. -/
theorem processTick_gapfill_c3_witness :
    processTick 60 "XAUUSD" "M1" (some cGap) tickGap =
      (some (openCandle "XAUUSD" "M1" (cGap.StartTime + 3 * 60) tickGap),
       (List.range 2).map (fun i =>
         { Status := "CLOSE"
           Candle := { Symbol := cGap.Symbol, Timeframe := cGap.Timeframe
                       StartTime := cGap.StartTime + (i + 1) * 60
                       Open := cGap.Close, High := cGap.Close, Low := cGap.Close
                       Close := cGap.Close, Volume := 0 } })
       ++ [{ Status := "CLOSE", Candle := cGap },
           { Status := "UPDATE"
             Candle := openCandle "XAUUSD" "M1" (cGap.StartTime + 3 * 60) tickGap }]) :=
  processTick_gapfill_c3 60 "XAUUSD" "M1" cGap tickGap 3 (by decide) (by decide) (by decide)

/-! ## Claim C2 — event stream block structure -/

/-- Counterexample to C2 as stated: with a tick at 0 s and a tick at
130 s on M1, the gap-fill bar at 60 s is published as a stand-alone
`CLOSE` *before* the `CLOSE` of the bar at 0 s, so the event stream is
not a concatenation of `UPDATE+ CLOSE` blocks with increasing start
times. -/
theorem eventStream_c2_counterexample :
    ¬ eventStreamClaim 60 "XAUUSD" "M1" [tickA, tickB] := by
  intro h
  exact absurd h.1 (by decide)

theorem window_mod (P t : Nat) (hP : 0 < P) : window P t % P = 0 := by
  unfold window
  have h := Nat.div_add_mod t P
  have h2 : t - t % P = P * (t / P) := by omega
  rw [h2]
  exact Nat.mul_mod_right P _

theorem processTick_none (P : Nat) (s tf : String) (tick : CleanTick) :
    processTick P s tf none tick =
      (some (openCandle s tf (window P tick.Timestamp) tick),
       [{ Status := "UPDATE"
          Candle := openCandle s tf (window P tick.Timestamp) tick }]) := rfl

theorem processTick_same (P : Nat) (s tf : String) (c : Candle) (tick : CleanTick)
    (h : window P tick.Timestamp = c.StartTime) :
    processTick P s tf (some c) tick =
      (some { c with High := max c.High tick.Price, Low := min c.Low tick.Price
                     Close := tick.Price, Volume := c.Volume + tick.Volume },
       [{ Status := "UPDATE"
          Candle := { c with High := max c.High tick.Price, Low := min c.Low tick.Price
                             Close := tick.Price, Volume := c.Volume + tick.Volume } }]) := by
  unfold processTick
  simp only []
  rw [h, if_neg (lt_irrefl _), if_pos rfl]

theorem processTick_next (P : Nat) (s tf : String) (c : Candle) (tick : CleanTick)
    (hP : 0 < P) (h : window P tick.Timestamp = c.StartTime + P) :
    processTick P s tf (some c) tick =
      (some (openCandle s tf (c.StartTime + P) tick),
       [{ Status := "CLOSE", Candle := c },
        { Status := "UPDATE", Candle := openCandle s tf (c.StartTime + P) tick }]) := by
  unfold processTick
  simp only []
  rw [h, if_pos (by omega : c.StartTime < c.StartTime + P)]
  have hmb : (c.StartTime + P - c.StartTime) / P = 1 := by
    rw [Nat.add_sub_cancel_left, Nat.div_self hP]
  rw [hmb, if_neg (by omega : ¬ 1 < 1)]
  rfl

theorem processTick_drop (P : Nat) (s tf : String) (c : Candle) (tick : CleanTick)
    (h1 : ¬ c.StartTime < window P tick.Timestamp)
    (h2 : ¬ window P tick.Timestamp = c.StartTime) :
    processTick P s tf (some c) tick = (some c, []) := by
  unfold processTick
  simp only []
  rw [if_neg h1, if_neg h2]

theorem processTick_mod (P : Nat) (s tf : String) (st : Option Candle) (tick : CleanTick)
    (hP : 0 < P) (hst : ∀ cc, st = some cc → cc.StartTime % P = 0) :
    (∀ e ∈ (processTick P s tf st tick).2, e.Candle.StartTime % P = 0) ∧
    (∀ cc, (processTick P s tf st tick).1 = some cc → cc.StartTime % P = 0) := by
  cases st with
  | none =>
      rw [processTick_none]
      constructor
      · intro e he
        simp at he
        rw [he]
        exact window_mod P tick.Timestamp hP
      · intro cc hcc
        simp at hcc
        rw [← hcc]
        exact window_mod P tick.Timestamp hP
  | some c =>
      have hc := hst c rfl
      have hwmod := window_mod P tick.Timestamp hP
      by_cases h1 : c.StartTime < window P tick.Timestamp
      · unfold processTick
        simp only []
        rw [if_pos h1]
        constructor
        · intro e he
          simp only [List.mem_append, List.mem_cons, List.not_mem_nil, or_false] at he
          rcases he with hgap | he | he
          · rcases (by split at hgap <;>
                simp [fillMissingBars, List.mem_map, List.mem_range] at hgap <;>
                first
                  | (obtain ⟨i, _, hi⟩ := hgap; exact ⟨i, hi.symm⟩)
                  | exact hgap.elim :
                ∃ i, e = { Status := "CLOSE"
                           Candle := { Symbol := c.Symbol, Timeframe := c.Timeframe
                                       StartTime := c.StartTime + (i + 1) * P
                                       Open := c.Close, High := c.Close, Low := c.Close
                                       Close := c.Close, Volume := 0 } }) with ⟨i, rfl⟩
            simpa [Nat.add_mul_mod_self_right] using hc
          · rw [he]; exact hc
          · rw [he]; exact hwmod
        · intro cc hcc
          simp only [Option.some.injEq] at hcc
          rw [← hcc]
          exact hwmod
      · by_cases h2 : window P tick.Timestamp = c.StartTime
        · rw [processTick_same P s tf c tick h2]
          constructor
          · intro e he; simp at he; rw [he]; exact hc
          · intro cc hcc; simp at hcc; rw [← hcc]; exact hc
        · rw [processTick_drop P s tf c tick h1 h2]
          constructor
          · intro e he; simp at he
          · intro cc hcc; simp at hcc; rw [← hcc]; exact hc

theorem processTicks_mod (P : Nat) (s tf : String) (ticks : List CleanTick) :
    ∀ st, 0 < P → (∀ cc, st = some cc → cc.StartTime % P = 0) →
      ∀ e ∈ (processTicks P s tf st ticks).2, e.Candle.StartTime % P = 0 := by
  induction ticks with
  | nil => intro st _ _ e he; simp [processTicks] at he
  | cons t ts ih =>
      intro st hP hst e he
      unfold processTicks at he
      simp only [List.mem_append] at he
      rcases he with he | he
      · exact (processTick_mod P s tf st t hP hst).1 e he
      · exact ih (processTick P s tf st t).1 hP
          (processTick_mod P s tf st t hP hst).2 e he

theorem blocks_aux (P : Nat) (s tf : String) (hP : 0 < P) (ticks : List CleanTick) :
    ∀ (c : Candle) (chk : ChkSt),
      ChkInv P c chk → headOk P c ticks → ticksStepOk P ticks →
      ∃ c2 chk2,
        (processTicks P s tf (some c) ticks).1 = some c2 ∧
        List.foldl chkStep (some chk) (processTicks P s tf (some c) ticks).2 = some chk2 ∧
        ChkInv P c2 chk2 := by
  induction ticks with
  | nil => intro c chk hinv _ _; exact ⟨c, chk, rfl, rfl, hinv⟩
  | cons t ts ih =>
      intro c chk hinv hhead hchain
      obtain ⟨lc, ob⟩ := chk
      obtain ⟨hob, hlc, hmod⟩ := hinv
      simp only at hob
      subst hob
      have hchain2 : ticksStepOk P ts := (List.chain'_cons'.mp hchain).2
      have hrel := (List.chain'_cons'.mp hchain).1
      rcases hhead with hw | hw
      · -- the tick lands in the current window: `Update` in place
        unfold processTicks
        rw [processTick_same P s tf c t hw]
        simp only [List.cons_append, List.nil_append, List.foldl_cons]
        have hstep :
            chkStep (some { lastClosed := lc, openBar := some c.StartTime })
              { Status := "UPDATE"
                Candle := { c with High := max c.High t.Price, Low := min c.Low t.Price
                                   Close := t.Price, Volume := c.Volume + t.Volume } } =
            some { lastClosed := lc, openBar := some c.StartTime } := by
          simp [chkStep]
        rw [hstep]
        exact ih _ _ ⟨rfl, hlc, hmod⟩
          (by
            cases ts with
            | nil => trivial
            | cons u us =>
                have := hrel u rfl
                simpa [headOk, hw] using this)
          hchain2
      · -- the tick lands in the next window: `CLOSE` then `UPDATE`
        unfold processTicks
        rw [processTick_next P s tf c t hP hw]
        simp only [List.cons_append, List.nil_append, List.foldl_cons]
        have hstep1 :
            chkStep (some { lastClosed := lc, openBar := some c.StartTime })
              { Status := "CLOSE", Candle := c } =
            some { lastClosed := some c.StartTime, openBar := none } := by
          simp [chkStep]
        have hstep2 :
            chkStep (some { lastClosed := some c.StartTime, openBar := none })
              { Status := "UPDATE", Candle := openCandle s tf (c.StartTime + P) t } =
            some { lastClosed := some c.StartTime, openBar := some (c.StartTime + P) } := by
          simp [chkStep, openCandle]
          omega
        rw [hstep1, hstep2]
        refine ih _ _ ⟨rfl, ?_, ?_⟩ ?_ hchain2
        · intro u hu
          simp only [Option.some.injEq] at hu
          simp only [openCandle]
          omega
        · simpa [openCandle, Nat.add_mod_right] using hmod
        · cases ts with
          | nil => trivial
          | cons u us =>
              have := hrel u rfl
              simpa [headOk, openCandle, hw] using this

/-- C2 (amended): for every tick sequence whose consecutive windows
advance by at most one period (no gaps, no out-of-order windows), the
emitted stream is a concatenation of per-bar `UPDATE+ CLOSE` blocks
(with the final block still open), strictly increasing between blocks,
and every emitted `start_time` is a multiple of `P`.  The multiples
clause needs no gap assumption; the block structure fails at gaps, as
the counterexample shows, because gap-fill bars are stand-alone `CLOSE`
events published before the previous bar's `CLOSE`. -/
theorem eventStream_c2 (P : Nat) (symbol tfName : String) (ticks : List CleanTick)
    (hP : 0 < P) :
    (∀ e ∈ (processTicks P symbol tfName none ticks).2, e.Candle.StartTime % P = 0) ∧
    (ticksStepOk P ticks → eventStreamClaim P symbol tfName ticks) := by
  refine ⟨processTicks_mod P symbol tfName ticks none hP (by simp), ?_⟩
  intro hchain
  constructor
  · cases ticks with
    | nil => rfl
    | cons t ts =>
        unfold processTicks
        rw [processTick_none]
        simp only [List.cons_append, List.nil_append]
        unfold blocksOk
        simp only [List.foldl_cons]
        have hstep :
            chkStep (some { lastClosed := none, openBar := none })
              { Status := "UPDATE"
                Candle := openCandle symbol tfName (window P t.Timestamp) t } =
            some { lastClosed := none, openBar := some (window P t.Timestamp) } := by
          simp [chkStep, openCandle]
        rw [hstep]
        obtain ⟨c2, chk2, _, hfold, _⟩ :=
          blocks_aux P symbol tfName hP ts (openCandle symbol tfName (window P t.Timestamp) t)
            { lastClosed := none, openBar := some (window P t.Timestamp) }
            ⟨rfl, by simp, by simpa [openCandle] using window_mod P t.Timestamp hP⟩
            (by
              cases ts with
              | nil => trivial
              | cons u us =>
                  have := (List.chain'_cons'.mp hchain).1 u rfl
                  simpa [headOk, openCandle] using this)
            ((List.chain'_cons'.mp hchain).2)
        rw [hfold]
        rfl
  · exact processTicks_mod P symbol tfName ticks none hP (by simp)

/-- Witness for C2: three ticks at 0 s, 30 s and 70 s on M1 satisfy the
step condition, so their event stream is block-structured with
period-aligned start times. -/
theorem eventStream_c2_witness : eventStreamClaim 60 "XAUUSD" "M1" [tickA, tickM, tickC] :=
  (eventStream_c2 60 "XAUUSD" "M1" [tickA, tickM, tickC] (by decide)).2
    (by
      unfold ticksStepOk
      rw [List.chain'_cons, List.chain'_cons]
      exact ⟨by decide, by decide, List.chain'_singleton _⟩)

/-! ## Claim C1 — buffer capacity and ordering -/

theorem add_maxSize (cb : CandleBuffer) (c : CandleData) :
    (cb.add c).maxSize = cb.maxSize := rfl

theorem update_maxSize (cb : CandleBuffer) (c : CandleData) :
    (cb.update c).maxSize = cb.maxSize := rfl

theorem add_length_le (cb : CandleBuffer) (c : CandleData) (hN : 1 ≤ cb.maxSize)
    (hlen : cb.candles.length ≤ cb.maxSize) :
    (cb.add c).candles.length ≤ cb.maxSize := by
  unfold CandleBuffer.add
  simp only []
  split_ifs with h
  · simp only [List.length_tail, List.length_append, List.length_singleton]
    omega
  · simp only [List.length_append, List.length_singleton] at h ⊢
    omega

theorem add_sorted (cb : CandleBuffer) (c : CandleData)
    (hs : sortedStrict cb.candles) (hok : addOk cb.candles c = true) :
    sortedStrict (cb.add c).candles := by
  have happ : sortedStrict (cb.candles ++ [c]) := by
    refine List.Chain'.append hs (List.chain'_singleton c) ?_
    intro x hx y hy
    simp only [List.head?_cons, Option.mem_def, Option.some.injEq] at hy
    subst hy
    unfold addOk at hok
    cases hl : cb.candles.getLast? with
    | none => rw [hl] at hx; simp at hx
    | some l =>
        rw [hl] at hx hok
        simp only [Option.mem_def, Option.some.injEq] at hx
        subst hx
        exact of_decide_eq_true hok
  unfold CandleBuffer.add
  simp only []
  split_ifs
  · exact happ.tail
  · exact happ

theorem update_length_le (cb : CandleBuffer) (c : CandleData) (hN : 1 ≤ cb.maxSize)
    (hlen : cb.candles.length ≤ cb.maxSize) :
    (cb.update c).candles.length ≤ cb.maxSize := by
  unfold CandleBuffer.update
  simp only []
  split_ifs with h
  · simpa using hN
  · have hne : cb.candles ≠ [] := by
      intro hc; rw [hc] at h; simp at h
    have hpos : 0 < cb.candles.length := List.length_pos.mpr hne
    simp only [List.length_append, List.length_singleton, List.length_dropLast]
    omega

theorem update_sorted (cb : CandleBuffer) (c : CandleData)
    (hs : sortedStrict cb.candles) (hok : updOk cb.candles c = true) :
    sortedStrict (cb.update c).candles := by
  unfold CandleBuffer.update
  simp only []
  split_ifs with h
  · exact List.chain'_singleton c
  · refine List.Chain'.append hs.init (List.chain'_singleton c) ?_
    intro x hx y hy
    simp only [List.head?_cons, Option.mem_def, Option.some.injEq] at hy
    subst hy
    unfold updOk at hok
    cases hl : cb.candles.dropLast.getLast? with
    | none => rw [hl] at hx; simp at hx
    | some l =>
        rw [hl] at hx hok
        simp only [Option.mem_def, Option.some.injEq] at hx
        subst hx
        exact of_decide_eq_true hok

theorem addCandle_invariant (cb : CandleBuffer) (c : CandleData) (isNew : Bool)
    (hN : 1 ≤ cb.maxSize) (hlen : cb.candles.length ≤ cb.maxSize)
    (hs : sortedStrict cb.candles)
    (hok : acceptsCandle c = true →
      (if isNew then addOk cb.candles c else updOk cb.candles c) = true) :
    (addCandle cb c isNew).maxSize = cb.maxSize ∧
    (addCandle cb c isNew).candles.length ≤ cb.maxSize ∧
    sortedStrict (addCandle cb c isNew).candles := by
  unfold addCandle
  split_ifs with h1 h2 h3 h4
  · exact ⟨rfl, hlen, hs⟩
  · exact ⟨rfl, hlen, hs⟩
  · exact ⟨rfl, hlen, hs⟩
  all_goals {
    have hacc : acceptsCandle c = true := by
      unfold acceptsCandle
      apply decide_eq_true
      obtain ⟨h2a, h2b⟩ := not_or.mp h2
      obtain ⟨h3a, h3b⟩ := not_or.mp h3
      exact ⟨not_lt.mp h1, not_lt.mp h2a, not_lt.mp h2b, not_lt.mp h3a, not_lt.mp h3b⟩
    have hok2 := hok hacc
    first
      | (rw [if_pos h4] at hok2
         exact ⟨add_maxSize cb c, add_length_le cb c hN hlen, add_sorted cb c hs hok2⟩)
      | (rw [if_neg h4] at hok2
         exact ⟨update_maxSize cb c, update_length_le cb c hN hlen,
                update_sorted cb c hs hok2⟩)
  }

theorem addCandle_of_accepts (cb : CandleBuffer) (c : CandleData) (isNew : Bool)
    (h : acceptsCandle c = true) :
    addCandle cb c isNew = if isNew then cb.add c else cb.update c := by
  have h' := of_decide_eq_true h
  unfold addCandle
  rw [if_neg (not_lt.mpr h'.1),
      if_neg (not_or.mpr ⟨not_lt.mpr h'.2.1, not_lt.mpr h'.2.2.1⟩),
      if_neg (not_or.mpr ⟨not_lt.mpr h'.2.2.2.1, not_lt.mpr h'.2.2.2.2⟩)]

/-- Counterexample to C1 as stated: two `CLOSE` appends of the same
valid candle leave the buffer with a duplicated `start_time`, so the
strict-ordering half of the claim fails (the buffer never checks
times). -/
theorem buffer_c1_counterexample :
    ¬ bufferClaimC1 { candles := [], maxSize := 3 } [(true, cd1), (true, cd1)] := by
  intro h
  have happly : applyEvents { candles := [], maxSize := 3 } [(true, cd1), (true, cd1)] =
      { candles := [cd1, cd1], maxSize := 3 } := by
    have hacc : acceptsCandle cd1 = true := by decide
    unfold applyEvents
    simp only [List.foldl_cons, List.foldl_nil]
    rw [addCandle_of_accepts _ cd1 true hacc, if_pos rfl]
    rw [addCandle_of_accepts _ cd1 true hacc, if_pos rfl]
    rfl
  unfold bufferClaimC1 at h
  rw [happly] at h
  have hsort := h.2
  simp [sortedStrict, cd1] at hsort

theorem addCandle_length (cb : CandleBuffer) (c : CandleData) (isNew : Bool)
    (hN : 1 ≤ cb.maxSize) (hlen : cb.candles.length ≤ cb.maxSize) :
    (addCandle cb c isNew).maxSize = cb.maxSize ∧
    (addCandle cb c isNew).candles.length ≤ cb.maxSize := by
  unfold addCandle
  split_ifs with h1 h2 h3 h4
  · exact ⟨rfl, hlen⟩
  · exact ⟨rfl, hlen⟩
  · exact ⟨rfl, hlen⟩
  · exact ⟨add_maxSize cb c, add_length_le cb c hN hlen⟩
  · exact ⟨update_maxSize cb c, update_length_le cb c hN hlen⟩

/-- C1 (amended): the buffer never exceeds its capacity (for capacity
at least 1) after **any** sequence of appends and updates; strict time
ordering is preserved only when every accepted append is strictly newer
than the stored tail and every accepted update is strictly newer than
the bar before the tail — the code itself never validates times, so
arbitrary event sequences can create duplicates. -/
theorem buffer_c1 (evs : List (Bool × CandleData)) :
    ∀ cb : CandleBuffer, 1 ≤ cb.maxSize → cb.candles.length ≤ cb.maxSize →
      (applyEvents cb evs).candles.length ≤ cb.maxSize ∧
      (sortedStrict cb.candles → okSeq cb evs = true → bufferClaimC1 cb evs) := by
  induction evs with
  | nil => intro cb _ hlen; exact ⟨hlen, fun hs _ => ⟨hlen, hs⟩⟩
  | cons e rest ih =>
      intro cb hN hlen
      obtain ⟨isNew, c⟩ := e
      have hstep := addCandle_length cb c isNew hN hlen
      have ih2 := ih (addCandle cb c isNew)
        (by rw [hstep.1]; exact hN)
        (by rw [hstep.1]; exact hstep.2)
      constructor
      · have hbound := ih2.1
        rw [hstep.1] at hbound
        unfold applyEvents at hbound ⊢
        simp only [List.foldl_cons]
        exact hbound
      · intro hs hok
        unfold okSeq at hok
        rw [Bool.and_eq_true] at hok
        obtain ⟨hok1, hok2⟩ := hok
        have hinv := addCandle_invariant cb c isNew hN hlen hs
          (fun hacc => by rwa [if_pos hacc] at hok1)
        have h2 := ih2.2 hinv.2.2 hok2
        unfold bufferClaimC1 applyEvents at h2 ⊢
        simp only [List.foldl_cons]
        rw [hinv.1] at h2
        exact h2

/-- Witness for C1: the unconditional capacity bound on the duplicating
sequence of the counterexample, and the full invariant on a
time-admissible sequence of two appends, one update and one evicting
append on a capacity-2 buffer. -/
theorem buffer_c1_witness :
    (applyEvents { candles := [], maxSize := 3 }
        [(true, cd1), (true, cd1)]).candles.length ≤ 3 ∧
    bufferClaimC1 { candles := [], maxSize := 2 }
      [(true, cdA), (false, cdA2), (true, cdB), (true, cdC)] :=
  ⟨(buffer_c1 [(true, cd1), (true, cd1)]
      { candles := [], maxSize := 3 } (by decide) (by decide)).1,
   (buffer_c1 [(true, cdA), (false, cdA2), (true, cdB), (true, cdC)]
      { candles := [], maxSize := 2 } (by decide) (by decide)).2
     (by simp [sortedStrict]) (by decide)⟩

/-! ## Claim C7 — snapshot on subscribe -/

/-- Counterexample to C7 as stated: when the buffer for the key holds a
duplicated bar (which two `CLOSE` appends of one bar produce), the
snapshot sent on subscribe is not strictly time-ordered. -/
theorem sendSnapshot_c7_counterexample :
    ¬ snapshotClaimC7 bufsDup "kline:XAUUSD:M1" "XAUUSD" "M1" [] 16 500 := by
  intro h
  have hne : bufsDup ("XAUUSD" ++ ":" ++ "M1") ≠ [] := by decide
  have hsort := (h.1 hne).2.2
  have heq : bufsDup ("XAUUSD" ++ ":" ++ "M1") = [cd1, cd1] := by decide
  rw [heq] at hsort
  simp [sortedStrict, cd1] at hsort

/-- C7 (amended): on subscribe to `kline:{symbol}:{timeframe}`, when
the client's bounded send queue has room, a non-empty buffer yields
exactly one snapshot whose data is exactly the buffer's bars in stored
order — at most `N` bars and strictly ordered whenever the buffer is —
and an empty buffer yields no snapshot.  (A full queue drops the
snapshot, and an unordered buffer yields an unordered snapshot.) -/
theorem sendSnapshot_c7 (bufs : String → List CandleData)
    (channel symbol timeframe : String) (queue : List SnapshotMessage)
    (queueCap maxN : Nat)
    (hparts : splitChannel channel = ["kline", symbol, timeframe])
    (hq : queue.length < queueCap)
    (hlen : (bufs (symbol ++ ":" ++ timeframe)).length ≤ maxN)
    (hsorted : sortedStrict (bufs (symbol ++ ":" ++ timeframe))) :
    snapshotClaimC7 bufs channel symbol timeframe queue queueCap maxN := by
  have hcond : (["kline", symbol, timeframe] : List String).length = 3 ∧
      (["kline", symbol, timeframe] : List String).headD "" = "kline" := by simp
  constructor
  · intro hne
    unfold sendSnapshot
    rw [hparts, if_pos hcond]
    simp only [List.getD_cons_succ, List.getD_cons_zero]
    rw [if_neg (by simpa [List.isEmpty_iff] using hne), if_pos hq]
    exact ⟨rfl, hlen, hsorted⟩
  · intro hemp
    unfold sendSnapshot
    rw [hparts, if_pos hcond]
    simp only [List.getD_cons_succ, List.getD_cons_zero]
    rw [if_pos (by simpa [List.isEmpty_iff] using hemp)]

/-- The two-bar buffer of the C7 witness is strictly ordered. -/
theorem c7_sorted_fact : sortedStrict (bufsW ("XAUUSD" ++ ":" ++ "M1")) := by
  have heq : bufsW ("XAUUSD" ++ ":" ++ "M1") = [cdB, cdC] := by decide
  rw [heq]
  simp [sortedStrict, cdB, cdC]

/-- Witness for C7: subscribing against a two-bar ordered buffer with a
roomy queue produces exactly the buffer snapshot; an unknown key
produces none. -/
theorem sendSnapshot_c7_witness :
    snapshotClaimC7 bufsW "kline:XAUUSD:M1" "XAUUSD" "M1" [] 16 500 :=
  sendSnapshot_c7 bufsW "kline:XAUUSD:M1" "XAUUSD" "M1" [] 16 500
    (by decide) (by decide) (by decide) c7_sorted_fact

/-! ## Claim C4 — Green Arrow trend flip on the flat-then-ramp scenario -/

namespace indicators

theorem c4closes_le (j i : Nat) (hj : j ≤ i) (hi : i ≤ 19) :
    c4closes j ≤ c4closes i := by
  unfold c4closes
  have hi20 : i < 20 := by omega
  rcases lt_or_ge j 10 with hj10 | hj10
  · rw [if_pos hj10]
    rcases lt_or_ge i 10 with hi10 | hi10
    · rw [if_pos hi10]
    · rw [if_neg (not_lt.mpr hi10), if_pos hi20]
      have hc : (10:ℝ) ≤ (i:ℝ) := by exact_mod_cast hi10
      linarith
  · rw [if_neg (not_lt.mpr hj10), if_pos (by omega : j < 20),
        if_neg (not_lt.mpr (le_trans hj10 hj)), if_pos hi20]
    have hc : (j:ℝ) ≤ (i:ℝ) := by exact_mod_cast hj
    linarith

theorem c4_windowSum_le (i : Nat) (hi : i ≤ 19) :
    ∀ k : Nat, windowSum c4closes i k ≤ k * c4closes i := by
  intro k
  induction k with
  | zero => simp [windowSum]
  | succ m ih =>
      unfold windowSum
      have h1 : c4closes (i - m) ≤ c4closes i := c4closes_le (i - m) i (by omega) hi
      push_cast
      linarith

theorem c4_mid_le (i : Nat) (hi : i ≤ 19) :
    CalculateSMA c4closes i 8 ≤ c4closes i := by
  unfold CalculateSMA
  rw [div_le_iff₀ (by norm_num : (0:ℝ) < (8:Nat))]
  have := c4_windowSum_le i hi 8
  push_cast at this ⊢
  linarith

theorem c4_sum7 : windowSum c4closes 7 8 = 800 := by
  simp only [windowSum]
  norm_num [c4closes]

theorem c4_mid7 : CalculateSMA c4closes 7 8 = 100 := by
  unfold CalculateSMA
  rw [c4_sum7]
  norm_num

theorem c4_sq7 : windowSqSum c4closes 7 100 8 = 0 := by
  simp only [windowSqSum]
  norm_num [c4closes]

theorem c4_sd7 : CalculateStdDev c4closes 7 8 100 = 0 := by
  unfold CalculateStdDev
  rw [c4_sq7]
  norm_num [Real.sqrt_zero]

/-- The first scanned bar (`i = 7 = L-1`): the zero-initialised previous
band makes `closes[7] = 100 > 0` an immediate up-cross, and the all-flat
window gives bands and stops exactly 100; the bar is a fresh signal. -/
theorem c4_step7 :
    gaStep c4closes defaultGAParams 7 initGAState =
      ({ trend := 1, ubPrev := 100, lbPrev := 100, usPrev := 100, lsPrev := 100
         prevRes := { UpStop := 100, DownStop := -1, UpSignal := 100, DownSignal := -1
                      UpLine := 100, DownLine := EMPTY_VALUE, Trend := 1, IsSignal := true } },
       { UpStop := 100, DownStop := -1, UpSignal := 100, DownSignal := -1
         UpLine := 100, DownLine := EMPTY_VALUE, Trend := 1, IsSignal := true }) := by
  have hc7 : c4closes 7 = 100 := by norm_num [c4closes]
  unfold gaStep
  simp only [defaultGAParams, initGAState]
  rw [hc7, c4_mid7, c4_sd7]
  simp only [Int.cast_one, one_mul, mul_zero, add_zero, sub_zero]
  rw [if_pos (⟨by norm_num, by norm_num⟩ : 0 < 7 ∧ (0:ℝ) < 100)]
  rw [if_neg (by rintro ⟨-, h⟩; norm_num at h : ¬(0 < 7 ∧ (100:ℝ) < 0))]
  rw [if_neg (by rintro ⟨-, -, h⟩; norm_num at h :
        ¬(0 < 7 ∧ (0:ℤ) < 1 ∧ (100:ℝ) < 0))]
  rw [if_neg (by rintro ⟨-, h, -⟩; norm_num at h :
        ¬(0 < 7 ∧ (1:ℤ) < 0 ∧ (0:ℝ) < 100))]
  simp only [sub_self, zero_div, zero_mul, add_zero, sub_zero]
  rw [if_neg (by rintro ⟨-, -, h⟩; norm_num at h :
        ¬(0 < 7 ∧ (0:ℤ) < 1 ∧ (100:ℝ) < 0))]
  rw [if_neg (by rintro ⟨-, h, -⟩; norm_num at h :
        ¬(0 < 7 ∧ (1:ℤ) < 0 ∧ (0:ℝ) < 100))]
  unfold updateBuffers updateUpTrendBuffers clearDownTrendBuffers
  rw [if_pos (by norm_num : (0:ℤ) < 1)]
  simp only [initResult]
  norm_num

/-- One scan step from index `8 ≤ i ≤ 19` preserves the uptrend
invariant and emits a bar with `Trend = 1` and no fresh signal. -/
theorem c4_step (i : Nat) (st : GAState) (hi : 8 ≤ i) (hi2 : i ≤ 19)
    (hinv : GAInv i st) :
    GAInv (i + 1) (gaStep c4closes defaultGAParams i st).1 ∧
    (gaStep c4closes defaultGAParams i st).2.Trend = 1 ∧
    (gaStep c4closes defaultGAParams i st).2.IsSignal = false := by
  obtain ⟨htr, hlb, hls, hstop⟩ := hinv
  have hi0 : (0:Nat) < i := by omega
  have hmid := c4_mid_le i hi2
  have hsd : 0 ≤ CalculateStdDev c4closes i 8 (CalculateSMA c4closes i 8) :=
    Real.sqrt_nonneg _
  have hstep : c4closes (i - 1) ≤ c4closes i := c4closes_le (i - 1) i (by omega) hi2
  have hlbi : st.lbPrev ≤ c4closes i := le_trans hlb hstep
  have hnosig : ¬(i = 7 ∨ st.prevRes.UpStop = -1) := by
    rintro (h7 | hm1)
    · omega
    · rw [hm1] at hstop; linarith
  unfold gaStep
  simp only [defaultGAParams]
  rw [htr]
  rw [if_neg (by rintro ⟨-, h⟩; exact absurd h (not_lt.mpr hlbi) :
        ¬(0 < i ∧ c4closes i < st.lbPrev))]
  rw [ite_self]
  simp only [Int.cast_one, one_mul,
    show ((1:ℤ) < 0) = False from by norm_num,
    show ((0:ℤ) < 1) = True from by norm_num,
    eq_true hi0, false_and, and_false, true_and, if_false,
    sub_self, zero_div, zero_mul, sub_zero, add_zero]
  unfold updateBuffers updateUpTrendBuffers clearDownTrendBuffers
  simp only [show ((1:ℤ) < 0) = False from by norm_num,
    show ((0:ℤ) < 1) = True from by norm_num,
    show ((1:ℤ) = 2) = False from by norm_num,
    if_true, if_false]
  rw [if_neg hnosig]
  unfold GAInv
  refine ⟨⟨rfl, ?_, ?_, ?_⟩, rfl, rfl⟩
  · simp only [Nat.add_sub_cancel]
    split_ifs with h
    · exact hlbi
    · linarith
  · split_ifs with h h2 h3
    · exact hls
    · exact le_trans hls (not_lt.mp h2)
    · exact hls
    · exact le_trans hls (not_lt.mp h3)
  · split_ifs with h h2 h3
    · exact hls
    · exact le_trans hls (not_lt.mp h2)
    · exact hls
    · exact le_trans hls (not_lt.mp h3)

theorem gaRun_length (c : Nat → ℝ) (p : GreenArrowParams) :
    ∀ (count i : Nat) (st : GAState), (gaRun c p i count st).length = count := by
  intro count
  induction count with
  | zero => intro i st; rfl
  | succ k ih =>
      intro i st
      unfold gaRun
      simp only [List.length_cons, ih]

theorem c4_run (count : Nat) :
    ∀ (i : Nat) (st : GAState), 8 ≤ i → i + count ≤ 20 → GAInv i st →
      ∀ r ∈ gaRun c4closes defaultGAParams i count st,
        r.Trend = 1 ∧ r.IsSignal = false := by
  induction count with
  | zero => intro i st _ _ _ r hr; simp [gaRun] at hr
  | succ k ih =>
      intro i st hi hle hinv r hr
      have hstep := c4_step i st hi (by omega) hinv
      rw [show gaRun c4closes defaultGAParams i (k + 1) st =
            (gaStep c4closes defaultGAParams i st).2 ::
              gaRun c4closes defaultGAParams (i + 1) k
                (gaStep c4closes defaultGAParams i st).1 from rfl] at hr
      rcases List.mem_cons.mp hr with h | h
      · rw [h]; exact ⟨hstep.2.1, hstep.2.2⟩
      · exact ih (i + 1) _ (by omega) (by omega) hstep.1 r h

theorem c4_closes_eq : closesOf c4candles = c4closes := by
  funext i
  unfold closesOf c4candles
  by_cases h : i < 20
  · rw [List.getD_eq_getElem?_getD, List.getElem?_map, List.getElem?_range h]
    rfl
  · rw [List.getD_eq_getElem?_getD, List.getElem?_map,
      List.getElem?_eq_none (by simpa using not_lt.mp h)]
    unfold c4closes
    rw [if_neg (by omega), if_neg h]
    rfl

theorem c4_expand :
    CalculateGreenArrow c4candles defaultGAParams =
      List.replicate 7 initResult ++
        gaRun c4closes defaultGAParams 7 13 initGAState := by
  unfold CalculateGreenArrow
  rw [c4_closes_eq]
  have hlen : c4candles.length = 20 := by unfold c4candles; simp
  rw [hlen]
  norm_num [defaultGAParams]

/-- C4: on the 20-bar flat-then-ramp scenario with the default
parameters, the running trend is 0 on every bar before index 7 and flips
to +1 exactly at index 7 — the first scanned bar, and the first bar
whose close (100) exceeds the upper-band value compared at that step
(the zero-initialised `upperBand[6] = 0`) — staying +1 afterwards;
`is_signal` is true exactly on that transition bar; and that bar's
`up_signal` equals the internal `lowerStop[7]` ("that bar's down stop"
in the specification's §4.6 wording), which is 100. -/
theorem greenArrow_c4 :
    (CalculateGreenArrow c4candles defaultGAParams).length = 20 ∧
    (∀ i : Nat, i < 7 →
      ((CalculateGreenArrow c4candles defaultGAParams).getD i initResult).Trend = 0) ∧
    (∀ i : Nat, 7 ≤ i → i < 20 →
      ((CalculateGreenArrow c4candles defaultGAParams).getD i initResult).Trend = 1) ∧
    ((CalculateGreenArrow c4candles defaultGAParams).getD 7 initResult).IsSignal = true ∧
    (∀ i : Nat, i < 20 → i ≠ 7 →
      ((CalculateGreenArrow c4candles defaultGAParams).getD i initResult).IsSignal = false) ∧
    initGAState.ubPrev < c4closes 7 ∧
    ((CalculateGreenArrow c4candles defaultGAParams).getD 7 initResult).UpSignal =
      c4LowerStop7 ∧
    c4LowerStop7 = 100 := by
  have h13 : gaRun c4closes defaultGAParams 7 13 initGAState =
      (gaStep c4closes defaultGAParams 7 initGAState).2 ::
        gaRun c4closes defaultGAParams 8 12
          (gaStep c4closes defaultGAParams 7 initGAState).1 := rfl
  have hrs : CalculateGreenArrow c4candles defaultGAParams =
      List.replicate 7 initResult ++
        ((gaStep c4closes defaultGAParams 7 initGAState).2 ::
          gaRun c4closes defaultGAParams 8 12
            (gaStep c4closes defaultGAParams 7 initGAState).1) := by
    rw [c4_expand, h13]
  have hInv8 : GAInv 8 (gaStep c4closes defaultGAParams 7 initGAState).1 := by
    rw [c4_step7]
    unfold GAInv
    refine ⟨rfl, ?_, by norm_num, by norm_num⟩
    norm_num [c4closes]
  have hlen12 :
      (gaRun c4closes defaultGAParams 8 12
        (gaStep c4closes defaultGAParams 7 initGAState).1).length = 12 :=
    gaRun_length _ _ 12 8 _
  refine ⟨?_, ?_, ?_, ?_, ?_, ?_, ?_, ?_⟩
  · rw [hrs]
    simp [gaRun_length]
  · intro i hi
    rw [hrs, List.getD_append _ _ _ _ (by simpa using hi),
      List.getD_eq_getElem _ _ (by simpa using hi), List.getElem_replicate]
    rfl
  · intro i h7 h20
    rw [hrs, List.getD_append_right _ _ _ _ (by simpa using h7)]
    simp only [List.length_replicate]
    by_cases h8 : i = 7
    · subst h8
      norm_num [c4_step7]
    · have hidx : i - 7 = (i - 8) + 1 := by omega
      rw [hidx, List.getD_cons_succ,
        List.getD_eq_getElem _ _ (by rw [hlen12]; omega)]
      exact (c4_run 12 8 _ (by norm_num) (by norm_num) hInv8 _
        (List.getElem_mem _)).1
  · rw [hrs, List.getD_append_right _ _ _ _ (by norm_num)]
    simp only [List.length_replicate]
    norm_num [c4_step7]
  · intro i h20 hne
    by_cases hi : i < 7
    · rw [hrs, List.getD_append _ _ _ _ (by simpa using hi),
        List.getD_eq_getElem _ _ (by simpa using hi), List.getElem_replicate]
      rfl
    · rw [hrs, List.getD_append_right _ _ _ _ (by simp; omega)]
      simp only [List.length_replicate]
      have hidx : i - 7 = (i - 8) + 1 := by omega
      rw [hidx, List.getD_cons_succ,
        List.getD_eq_getElem _ _ (by rw [hlen12]; omega)]
      exact (c4_run 12 8 _ (by norm_num) (by norm_num) hInv8 _
        (List.getElem_mem _)).2
  · norm_num [initGAState, c4closes]
  · rw [hrs, List.getD_append_right _ _ _ _ (by norm_num)]
    simp only [List.length_replicate]
    unfold c4LowerStop7
    norm_num [c4_step7]
  · unfold c4LowerStop7
    rw [c4_step7]

/-- Witness for C4: sampled bars of the scenario — trend 0 at bar 3,
trend 1 without a fresh signal at bar 12. -/
theorem greenArrow_c4_witness :
    ((CalculateGreenArrow c4candles defaultGAParams).getD 3 initResult).Trend = 0 ∧
    ((CalculateGreenArrow c4candles defaultGAParams).getD 12 initResult).Trend = 1 ∧
    ((CalculateGreenArrow c4candles defaultGAParams).getD 12 initResult).IsSignal = false :=
  ⟨greenArrow_c4.2.1 3 (by decide),
   greenArrow_c4.2.2.1 12 (by decide) (by decide),
   greenArrow_c4.2.2.2.2.1 12 (by decide) (by decide)⟩

end indicators

end Dbwrite
